import Mathlib

/-! AI Job Chommie: service worker, API client and page handlers

A shallow embedding of `frontend/static/sw.js` (fetch handlers, activation,
background sync, push, messages), of the API client of
`frontend/static/api.js`, and of the page handlers of `frontend/static/js`
that guard, search and log out.

Platform objects are modelled as plain data:

* a `CacheStorage` is the list of cache namespaces in creation order, each a
  list of entries keyed by the request URL;
* the outcome of one network attempt is a `NetOutcome`;
* a handler run yields a `Run`: what its promise settles to, the cache storage
  afterwards, and the platform calls it made, in order.

Storage operations of the Cache API are taken to succeed.
-/

namespace ServiceWorker

/-! ## Data model -/

/-- A parsed URL, as the `URL` class exposes it. -/
structure URL where
  origin : String
  pathname : String
  search : String
deriving DecidableEq, Repr

/-- JSON values, as far as the worker inspects them. -/
inductive Json where
  | null
  | bool (b : Bool)
  | num (n : Int)
  | str (s : String)
  | arr (items : List Json)
  | obj (fields : List (String × Json))
deriving Repr

/-- Property access `v.name` on a parsed JSON value; `none` is `undefined`. -/
def Json.field (name : String) : Json → Option Json
  | .obj fields => fields.lookup name
  | _ => none

/-- A response body: either text that is not JSON, or the text
`JSON.stringify(v)` of a JSON value `v`. -/
inductive Body where
  | text (s : String)
  | json (v : Json)
deriving Repr

/-- An HTTP response. -/
structure Response where
  status : Nat
  statusText : String
  headers : List (String × String)
  body : Body
deriving Repr

/-- The `ok` flag of a response: status in the range 200 to 299. -/
def Response.ok (r : Response) : Bool :=
  decide (200 ≤ r.status) && decide (r.status ≤ 299)

/-- A request as seen by the fetch listener. -/
structure Request where
  url : URL
  method : String
  mode : String
deriving DecidableEq, Repr

/-! ## Constants of `sw.js` -/

/-- Name of the static-asset cache namespace (sw.js line 7). -/
def CACHE_NAME : String := "ai-job-chommie-v2.0.0"

/-- Path of the offline placeholder document (sw.js line 8). -/
def OFFLINE_URL : String := "/offline.html"

/-- Name of the API-response cache namespace (sw.js line 9). -/
def API_CACHE_NAME : String := "ai-job-chommie-api-v2.0.0"

/-! ## Cache API -/

/-- One cache namespace: entries keyed by request URL. -/
abbrev Cache := List (URL × Response)

/-- All cache namespaces of the origin, in creation order. -/
abbrev CacheStorage := List (String × Cache)

/-- The entry matching a key in one namespace (`cache.match`). -/
def Cache.matchRequest (key : URL) (c : Cache) : Option Response :=
  (c.find? (fun e => decide (e.1 = key))).map (fun e => e.2)

/-- Store a response under a key, replacing any entry with that key
(`cache.put`). -/
def Cache.put (key : URL) (r : Response) (c : Cache) : Cache :=
  c.filter (fun e => !decide (e.1 = key)) ++ [(key, r)]

/-- The namespace names (`caches.keys()`), in creation order. -/
def CacheStorage.keys (cs : CacheStorage) : List String :=
  cs.map (fun ns => ns.1)

/-- Whether a namespace of that name exists (`caches.has`). -/
def CacheStorage.has (name : String) (cs : CacheStorage) : Bool :=
  cs.any (fun ns => decide (ns.1 = name))

/-- The contents of the namespace of that name, if it exists. -/
def CacheStorage.lookup (name : String) (cs : CacheStorage) : Option Cache :=
  (cs.find? (fun ns => decide (ns.1 = name))).map (fun ns => ns.2)

/-- Open a namespace, creating it empty at the end of the creation order when
it does not exist (`caches.open`). -/
def CacheStorage.openCache (name : String) (cs : CacheStorage) : CacheStorage :=
  if cs.has name then cs else cs ++ [(name, [])]

/-- Delete the namespace of that name (`caches.delete`). -/
def CacheStorage.deleteCache (name : String) (cs : CacheStorage) : CacheStorage :=
  cs.filter (fun ns => !decide (ns.1 = name))

/-- Run `cache.put` on the namespace of that name. -/
def CacheStorage.putIn (name : String) (key : URL) (r : Response)
    (cs : CacheStorage) : CacheStorage :=
  cs.map (fun ns => if ns.1 = name then (ns.1, Cache.put key r ns.2) else ns)

/-- The first matching entry over all namespaces in creation order
(`caches.match`). -/
def CacheStorage.matchRequest (key : URL) (cs : CacheStorage) : Option Response :=
  cs.findSome? (fun ns => Cache.matchRequest key ns.2)

/-! ## Network attempts -/

/-- What the network does with one request. -/
inductive NetOutcome where
  | responds (ms : Nat) (r : Response)
  | rejects
  | never
deriving Repr

/-- What an awaited `fetch` gives the handler. -/
inductive Attempt where
  | response (r : Response)
  | failed
  | pending
deriving Repr

/-- A `fetch` without abort signal: `await fetch(request)`. -/
def fetchPlain : NetOutcome → Attempt
  | .responds _ r => .response r
  | .rejects => .failed
  | .never => .pending

/-- A `fetch` whose signal is aborted by a timer after `timeoutMs`
milliseconds: the abort rejects the fetch unless it has resolved before. -/
def fetchWithAbort (timeoutMs : Nat) : NetOutcome → Attempt
  | .responds ms r => if ms < timeoutMs then .response r else .failed
  | .rejects => .failed
  | .never => .failed

/-! ## Handler runs -/

/-- Platform calls made by a fetch handler. -/
inductive Effect where
  | fetch (request : Request) (abortAfterMs : Option Nat)
  | cachesOpen (name : String)
  | cachePut (name : String) (key : URL)
  | cachesMatch (key : URL)
deriving DecidableEq, Repr

/-- What the promise returned by a handler settles to. -/
inductive Settled where
  | response (r : Response)
  | undefined
  | pending
deriving Repr

/-- The observable run of a handler. -/
structure Run where
  result : Settled
  caches : CacheStorage
  trace : List Effect

/-- The synthetic response of `handleApiRequest` (sw.js lines 165-178). -/
def apiOfflineResponse : Response :=
  { status := 503
    statusText := "Service Unavailable"
    headers := [("Content-Type", "application/json")]
    body := .json (.obj
      [ ("error", .str "Offline"),
        ("message", .str "You are currently offline. Some features may not be available."),
        ("cached", .bool false) ]) }

/-- The generic response of `handleStaticRequest` (sw.js lines 215-218). -/
def staticOfflineResponse : Response :=
  { status := 503
    statusText := "Service Unavailable"
    headers := []
    body := .text "Offline - Content not available" }

/-- Cache successful responses: `caches.open(name)` then
`cache.put(request, networkResponse.clone())`. -/
def cacheResponse (name : String) (request : Request) (networkResponse : Response)
    (caches : CacheStorage) : CacheStorage :=
  (caches.openCache name).putIn name request.url networkResponse

/-- The flag `isHealthCheck` of `handleApiRequest` (sw.js line 120). -/
def isHealthCheck (request : Request) : Bool :=
  decide (request.url.pathname = "/api/health") || decide (request.url.pathname = "/api/status")

/-- The abort timer of the network attempt of `handleApiRequest`: none for a
health check (line 125), 5000 ms otherwise (lines 137-142). -/
def apiAbortAfter (request : Request) : Option Nat :=
  if isHealthCheck request then none else some 5000

/-- The network attempt of `handleApiRequest`. -/
def apiFetch (request : Request) (net : NetOutcome) : Attempt :=
  if isHealthCheck request then fetchPlain net else fetchWithAbort 5000 net

/-- The function `handleApiRequest` (sw.js lines 118-180). -/
def handleApiRequest (net : NetOutcome) (request : Request) (caches : CacheStorage) : Run :=
  let abortAfter := apiAbortAfter request
  match apiFetch request net with
  | .response networkResponse =>
    if networkResponse.ok then
      { result := .response networkResponse
        caches := cacheResponse API_CACHE_NAME request networkResponse caches
        trace := [.fetch request abortAfter, .cachesOpen API_CACHE_NAME,
                  .cachePut API_CACHE_NAME request.url] }
    else
      { result := .response networkResponse, caches := caches,
        trace := [.fetch request abortAfter] }
  | .pending =>
    { result := .pending, caches := caches, trace := [.fetch request abortAfter] }
  | .failed =>
    match caches.matchRequest request.url with
    | some cachedResponse =>
      { result := .response cachedResponse, caches := caches,
        trace := [.fetch request abortAfter, .cachesMatch request.url] }
    | none =>
      { result := .response apiOfflineResponse, caches := caches,
        trace := [.fetch request abortAfter, .cachesMatch request.url] }

/-- The function `handleStaticRequest` (sw.js lines 185-220); `selfOrigin` is
the origin of the worker, against which `OFFLINE_URL` is resolved. -/
def handleStaticRequest (selfOrigin : String) (net : NetOutcome) (request : Request)
    (caches : CacheStorage) : Run :=
  match fetchPlain net with
  | .response networkResponse =>
    if networkResponse.ok then
      { result := .response networkResponse
        caches := cacheResponse CACHE_NAME request networkResponse caches
        trace := [.fetch request none, .cachesOpen CACHE_NAME,
                  .cachePut CACHE_NAME request.url] }
    else
      { result := .response networkResponse, caches := caches,
        trace := [.fetch request none] }
  | .pending =>
    { result := .pending, caches := caches, trace := [.fetch request none] }
  | .failed =>
    match caches.matchRequest request.url with
    | some cachedResponse =>
      { result := .response cachedResponse, caches := caches,
        trace := [.fetch request none, .cachesMatch request.url] }
    | none =>
      if request.mode = "navigate" then
        let offlineKey : URL := { origin := selfOrigin, pathname := OFFLINE_URL, search := "" }
        -- the left operand of `||` is a promise, hence truthy: only the first lookup runs
        match caches.matchRequest offlineKey with
        | some offlinePage =>
          { result := .response offlinePage, caches := caches,
            trace := [.fetch request none, .cachesMatch request.url, .cachesMatch offlineKey] }
        | none =>
          { result := .undefined, caches := caches,
            trace := [.fetch request none, .cachesMatch request.url, .cachesMatch offlineKey] }
      else
        { result := .response staticOfflineResponse, caches := caches,
          trace := [.fetch request none, .cachesMatch request.url] }

/-- The cache clean-up of the `activate` listener (sw.js lines 77-86): every
name returned by `caches.keys()` that differs from both current names is
deleted. -/
def activate (caches : CacheStorage) : CacheStorage :=
  caches.keys.foldl
    (fun acc cacheName =>
      if cacheName ≠ CACHE_NAME ∧ cacheName ≠ API_CACHE_NAME then acc.deleteCache cacheName
      else acc)
    caches

/-- No namespace created before the namespace `name` holds an entry for `key`. -/
def precedingMiss (name : String) (key : URL) (cs : CacheStorage) : Bool :=
  (cs.takeWhile (fun ns => !decide (ns.1 = name))).all
    (fun ns => (Cache.matchRequest key ns.2).isNone)

/-! ## Installation and control messages -/

/-- The list `STATIC_CACHE_URLS` (sw.js lines 12-28), each entry resolved
against the origin of the worker. -/
def STATIC_CACHE_URLS (selfOrigin : String) : List URL :=
  [ { origin := selfOrigin, pathname := "/", search := "" },
    { origin := selfOrigin, pathname := "/index.html", search := "" },
    { origin := selfOrigin, pathname := "/offline.html", search := "" },
    { origin := selfOrigin, pathname := "/manifest.json", search := "" },
    { origin := selfOrigin, pathname := "/logo.png", search := "" },
    { origin := selfOrigin, pathname := "/professional-styles.css", search := "" },
    { origin := selfOrigin, pathname := "/api.js", search := "" },
    { origin := selfOrigin, pathname := "/payments.js", search := "" },
    { origin := selfOrigin, pathname := "/js/app.js", search := "" },
    { origin := selfOrigin, pathname := "/js/auth.js", search := "" },
    { origin := selfOrigin, pathname := "/js/threejs-background.js", search := "" },
    { origin := selfOrigin, pathname := "/js/ui-components.js", search := "" },
    { origin := "https://fonts.googleapis.com", pathname := "/css2",
      search := "?family=Orbitron:wght@400;700;900&family=Exo+2:wght@300;400;600;800&display=swap" },
    { origin := "https://cdnjs.cloudflare.com", pathname := "/ajax/libs/three.js/r128/three.min.js",
      search := "" } ]

/-- The call `cache.addAll(urls)` on the namespace `name`: every URL is
fetched, and the responses are stored only when all of them are ok and no URL
occurs twice in the list (the platform rejects a batch with two puts for the
same request and stores nothing); `none` when the promise does not fulfil. -/
def addAll (fetchUrl : URL → NetOutcome) (name : String) (urls : List URL)
    (caches : CacheStorage) : Option CacheStorage :=
  let fetched := urls.mapM (fun u =>
    match fetchPlain (fetchUrl u) with
    | .response r => if r.ok then some (u, r) else none
    | _ => none)
  if urls.Nodup then
    fetched.map (fun entries => entries.foldl (fun acc e => acc.putIn name e.1 e.2) caches)
  else none

/-- The cache work of the `install` listener (sw.js lines 47-66): the two
current namespaces are opened and the static list is added; the second
component tells whether the installation succeeds. -/
def install (fetchUrl : URL → NetOutcome) (selfOrigin : String) (caches : CacheStorage) :
    CacheStorage × Bool :=
  let opened := (caches.openCache CACHE_NAME).openCache API_CACHE_NAME
  match addAll fetchUrl CACHE_NAME (STATIC_CACHE_URLS selfOrigin) opened with
  | some filled => (filled, true)
  | none => (opened, false)

/-- The `data` of a message event. -/
structure MessageData where
  type : String
  urls : Option (List URL)

/-- What the `message` listener did. -/
structure MessageRun where
  caches : CacheStorage
  skipWaiting : Bool

/-- The `message` listener (sw.js lines 467-490). -/
def onMessage (fetchUrl : URL → NetOutcome) (data : Option MessageData)
    (caches : CacheStorage) : MessageRun :=
  match data with
  | none => { caches := caches, skipWaiting := false }
  | some d =>
    let afterCacheUrls :=
      if d.type = "CACHE_URLS" then
        match d.urls with
        | some urls =>
          (addAll fetchUrl CACHE_NAME urls (caches.openCache CACHE_NAME)).getD
            (caches.openCache CACHE_NAME)
        | none => caches.openCache CACHE_NAME
      else caches
    let afterClear :=
      if d.type = "CLEAR_CACHE" then
        (afterCacheUrls.deleteCache CACHE_NAME).deleteCache API_CACHE_NAME
      else afterCacheUrls
    { caches := afterClear, skipWaiting := decide (d.type = "SKIP_WAITING") }

/-! ## Concrete inputs used in examples -/

/-- A GET request for an API endpoint that is not a health check. -/
def profileRequest : Request :=
  { url := { origin := "https://app.example", pathname := "/api/auth/me", search := "" }
    method := "GET", mode := "cors" }

/-- A GET request for a static asset. -/
def logoRequest : Request :=
  { url := { origin := "https://app.example", pathname := "/logo.png", search := "" }
    method := "GET", mode := "no-cors" }

/-- A GET request for the liveness endpoint. -/
def healthRequest : Request :=
  { url := { origin := "https://app.example", pathname := "/api/health", search := "" }
    method := "GET", mode := "cors" }

/-- A full-page navigation to the dashboard. -/
def dashboardNavigation : Request :=
  { url := { origin := "https://app.example", pathname := "/dashboard", search := "" }
    method := "GET", mode := "navigate" }

/-- An ok response with a given body text. -/
def okResponse (text : String) : Response :=
  { status := 200, statusText := "OK", headers := [], body := .text text }

/-- A network on which every URL answers 200 with the body "stale". -/
def staleNet : URL → NetOutcome :=
  fun _ => .responds 50 (okResponse "stale")

/-- The cache namespaces right after a successful installation. -/
def installedCaches : CacheStorage :=
  (install staleNet "https://app.example" []).1

/-- The cache namespaces after installation and a `CACHE_URLS` message naming
the URL of `profileRequest`: the static namespace, created first, holds an
entry for that API request. -/
def shadowedCaches : CacheStorage :=
  (onMessage staleNet (some { type := "CACHE_URLS", urls := some [profileRequest.url] })
    installedCaches).caches

/-- The cache namespaces after installation and a `CLEAR_CACHE` message. -/
def clearedCaches : CacheStorage :=
  (onMessage staleNet (some { type := "CLEAR_CACHE", urls := none }) installedCaches).caches

/-! ## Fetch listener -/

/-- The test `s.startsWith(p)` on strings. -/
def startsWith (s p : String) : Bool :=
  p.data.isPrefixOf s.data

/-- The `fetch` listener (sw.js lines 96-113): `none` when the listener returns
without calling `respondWith`, so that the request goes to the network
unhandled. -/
def onFetch (selfOrigin : String) (net : NetOutcome) (request : Request)
    (caches : CacheStorage) : Option Run :=
  if request.method ≠ "GET" then none
  else if startsWith request.url.pathname "/api/" then some (handleApiRequest net request caches)
  else some (handleStaticRequest selfOrigin net request caches)

/-! ## Background sync -/

/-- A queued job application: `id`, `jobId` and the remaining properties. -/
structure Application where
  id : Nat
  jobId : String
  extra : List (String × Json)

/-- The object serialised by `JSON.stringify(application)`. -/
def Application.toJson (application : Application) : Json :=
  .obj ([("id", .num application.id), ("jobId", .str application.jobId)] ++ application.extra)

/-- A queued profile update. -/
structure ProfileUpdate where
  id : Nat
  data : Json

/-- A queued job search. -/
structure JobSearch where
  id : Nat
  params : Json

/-- The arguments of a `fetch(url, init)` call of a sync routine. -/
structure SyncCall where
  url : String
  method : String
  headers : List (String × String)
  body : Json

/-- What a replay `fetch` settles to. -/
inductive ReplayOutcome where
  | rejects
  | response (r : Response)

/-- Whether a replay returned an ok response. -/
def ReplayOutcome.isOk : ReplayOutcome → Bool
  | .rejects => false
  | .response r => r.ok

/-- The environment of one sync trigger: the outcome of the `i`-th replay
fetch, which may depend on the call; whether displaying a notification in the
`i`-th iteration rejects; and, for the value `v` of an own property `length`
of a JSON object, what the platform makes of it: `none` when the comparison
`v > 0` is false or throws, else the text of `v` in a template literal. -/
structure SyncWorld where
  net : Nat → SyncCall → ReplayOutcome
  notifyRejects : Nat → Bool
  lengthText : Json → Option String

/-- Calls made by a sync routine, in order. The flag of `showNotification`
tells whether `registration.showNotification` succeeded; its rejection is
caught inside the helper `showNotification` (sw.js lines 452-462). -/
inductive SyncEffect where
  | fetch (call : SyncCall)
  | removePendingApplication (id : Nat)
  | removePendingProfileUpdate (id : Nat)
  | removePendingJobSearch (id : Nat)
  | showNotification (title : String) (tag : String) (displayed : Bool)

/-- The replay request of `syncJobApplications` (sw.js lines 255-261). -/
def replayApplication (application : Application) : SyncCall :=
  { url := "/api/jobs/apply", method := "POST"
    headers := [("Content-Type", "application/json")], body := application.toJson }

/-- The replay request of `syncProfileUpdates` (sw.js lines 294-300). -/
def replayProfileUpdate (update : ProfileUpdate) : SyncCall :=
  { url := "/api/profile", method := "PUT"
    headers := [("Content-Type", "application/json")], body := update.data }

/-- The replay request of `syncJobSearches` (sw.js lines 326-332). -/
def replayJobSearch (search : JobSearch) : SyncCall :=
  { url := "/api/jobs/search", method := "POST"
    headers := [("Content-Type", "application/json")], body := search.params }

/-- The body of a response parsed by `response.json()`; `none` when the
promise rejects. -/
def Response.json (r : Response) : Option Json :=
  match r.body with
  | .json v => some v
  | .text _ => none

/-- A `for ... of` loop whose body is wrapped in `try`/`catch`: the body runs
once per element, in order, on the storage state left by the previous one; `i`
counts the iterations. -/
def syncLoop {σ α : Type} (body : Nat → α → σ → σ × List SyncEffect) :
    Nat → List α → σ → σ × List SyncEffect
  | _, [], store => (store, [])
  | i, item :: rest, store =>
    let step := body i item store
    let after := syncLoop body (i + 1) rest step.1
    (after.1, step.2 ++ after.2)

/-- One iteration of the loop of `syncJobApplications` (sw.js lines 254-276).
`removePending` is the storage helper; `none` means that it rejects. -/
def applicationStep {σ : Type} (removePending : Nat → σ → Option σ) (world : SyncWorld)
    (i : Nat) (application : Application) (store : σ) : σ × List SyncEffect :=
  match world.net i (replayApplication application) with
  | .rejects => (store, [.fetch (replayApplication application)])
  | .response response =>
    if response.ok then
      match removePending application.id store with
      | none =>
        (store, [.fetch (replayApplication application),
                 .removePendingApplication application.id])
      | some store1 =>
        (store1, [.fetch (replayApplication application),
                  .removePendingApplication application.id,
                  .showNotification "Job application sent successfully!"
                    "job-application-success" (!world.notifyRejects i)])
    else (store, [.fetch (replayApplication application)])

/-- One iteration of the loop of `syncProfileUpdates` (sw.js lines 293-308). -/
def profileUpdateStep {σ : Type} (removePending : Nat → σ → Option σ) (world : SyncWorld)
    (i : Nat) (update : ProfileUpdate) (store : σ) : σ × List SyncEffect :=
  match world.net i (replayProfileUpdate update) with
  | .rejects => (store, [.fetch (replayProfileUpdate update)])
  | .response response =>
    if response.ok then
      match removePending update.id store with
      | none =>
        (store, [.fetch (replayProfileUpdate update), .removePendingProfileUpdate update.id])
      | some store1 =>
        (store1, [.fetch (replayProfileUpdate update), .removePendingProfileUpdate update.id])
    else (store, [.fetch (replayProfileUpdate update)])

/-- The `length` of a string in UTF-16 code units. -/
def utf16Length (s : String) : Nat :=
  (s.data.map (fun c => if c.val.toNat < 65536 then 1 else 2)).sum

/-- The number announced by `syncJobSearches` (sw.js lines 339-340), as the
text that the template literal shows: that of `data.jobs.length` when
`data.jobs` is truthy and `data.jobs.length > 0` holds, else `none`. An array
and a string have their length; an object has its own property `length`, if
any, which the platform coerces (`lengthText`); a number or a boolean has no
`length`. -/
def announcedJobs (lengthText : Json → Option String) (data : Json) : Option String :=
  match data.field "jobs" with
  | some (.arr items) => if 0 < items.length then some (toString items.length) else none
  | some (.str text) =>
    if 0 < utf16Length text then some (toString (utf16Length text)) else none
  | some (.obj fields) => (fields.lookup "length").bind lengthText
  | _ => none

/-- One iteration of the loop of `syncJobSearches` (sw.js lines 325-349). -/
def jobSearchStep {σ : Type} (removePending : Nat → σ → Option σ) (world : SyncWorld)
    (i : Nat) (search : JobSearch) (store : σ) : σ × List SyncEffect :=
  match world.net i (replayJobSearch search) with
  | .rejects => (store, [.fetch (replayJobSearch search)])
  | .response response =>
    if response.ok then
      match removePending search.id store with
      | none =>
        (store, [.fetch (replayJobSearch search), .removePendingJobSearch search.id])
      | some store1 =>
        match response.json.bind (announcedJobs world.lengthText) with
        | some count =>
          (store1, [.fetch (replayJobSearch search), .removePendingJobSearch search.id,
                    .showNotification ("Found " ++ count ++ " new job matches!")
                      "job-search-results" (!world.notifyRejects i)])
        | none =>
          (store1, [.fetch (replayJobSearch search), .removePendingJobSearch search.id])
    else (store, [.fetch (replayJobSearch search)])

/-- The routine `syncJobApplications` (sw.js lines 246-281) over storage
helpers `getPending` and `removePending`; a rejection of `getPending` (`none`)
is caught by the outer `try`. -/
def syncJobApplicationsWith {σ : Type} (getPending : σ → Option (List Application))
    (removePending : Nat → σ → Option σ) (world : SyncWorld) (store : σ) :
    σ × List SyncEffect :=
  match getPending store with
  | none => (store, [])
  | some pendingApplications =>
    syncLoop (applicationStep removePending world) 0 pendingApplications store

/-- The routine `syncProfileUpdates` (sw.js lines 286-313) over storage helpers. -/
def syncProfileUpdatesWith {σ : Type} (getPending : σ → Option (List ProfileUpdate))
    (removePending : Nat → σ → Option σ) (world : SyncWorld) (store : σ) :
    σ × List SyncEffect :=
  match getPending store with
  | none => (store, [])
  | some pendingUpdates =>
    syncLoop (profileUpdateStep removePending world) 0 pendingUpdates store

/-- The routine `syncJobSearches` (sw.js lines 318-354) over storage helpers. -/
def syncJobSearchesWith {σ : Type} (getPending : σ → Option (List JobSearch))
    (removePending : Nat → σ → Option σ) (world : SyncWorld) (store : σ) :
    σ × List SyncEffect :=
  match getPending store with
  | none => (store, [])
  | some pendingSearches =>
    syncLoop (jobSearchStep removePending world) 0 pendingSearches store

/-- The durable client-side storage that the helper functions are meant to
read and write: one queue per action kind, oldest first. -/
structure Store where
  applications : List Application
  profileUpdates : List ProfileUpdate
  jobSearches : List JobSearch

/-- The helper `getPendingApplications` (sw.js lines 425-429): resolves to the
empty array whatever the storage holds. -/
def getPendingApplications (_store : Store) : Option (List Application) := some []

/-- The helper `removePendingApplication` (sw.js lines 431-434): resolves
without touching the storage. -/
def removePendingApplication (_id : Nat) (store : Store) : Option Store := some store

/-- The helper `getPendingProfileUpdates` (sw.js lines 436-438). -/
def getPendingProfileUpdates (_store : Store) : Option (List ProfileUpdate) := some []

/-- The helper `removePendingProfileUpdate` (sw.js lines 440-442). -/
def removePendingProfileUpdate (_id : Nat) (store : Store) : Option Store := some store

/-- The helper `getPendingJobSearches` (sw.js lines 444-446). -/
def getPendingJobSearches (_store : Store) : Option (List JobSearch) := some []

/-- The helper `removePendingJobSearch` (sw.js lines 448-450). -/
def removePendingJobSearch (_id : Nat) (store : Store) : Option Store := some store

/-- The routine `syncJobApplications` with the helpers of sw.js. -/
def syncJobApplications (world : SyncWorld) (store : Store) : Store × List SyncEffect :=
  syncJobApplicationsWith getPendingApplications removePendingApplication world store

/-- The routine `syncProfileUpdates` with the helpers of sw.js. -/
def syncProfileUpdates (world : SyncWorld) (store : Store) : Store × List SyncEffect :=
  syncProfileUpdatesWith getPendingProfileUpdates removePendingProfileUpdate world store

/-- The routine `syncJobSearches` with the helpers of sw.js. -/
def syncJobSearches (world : SyncWorld) (store : Store) : Store × List SyncEffect :=
  syncJobSearchesWith getPendingJobSearches removePendingJobSearch world store

/-- A sequence of sync triggers of one kind, each in its own environment, on
the storage left by the previous one. -/
def runTriggers {σ : Type} (sync : SyncWorld → σ → σ × List SyncEffect) :
    List SyncWorld → σ → σ × List SyncEffect
  | [], store => (store, [])
  | world :: later, store =>
    let first := sync world store
    let rest := runTriggers sync later first.1
    (rest.1, first.2 ++ rest.2)

/-- The replay requests among the calls of a sync routine, in order. -/
def fetchCalls : List SyncEffect → List SyncCall
  | [] => []
  | .fetch call :: rest => call :: fetchCalls rest
  | _ :: rest => fetchCalls rest

/-! ## Storage helpers as the data model describes them -/

/-- Modelled from the spec: the retrieval from the persistent storage of
pending job applications, which sw.js leaves to a placeholder that returns the
empty array ("retrieves all PendingActions of that kind from persistent
storage (ordered by creation time, oldest first)"): the stored job
applications, oldest first. -/
def queuedApplications (store : Store) : Option (List Application) :=
  some store.applications

/-- Modelled from the spec: the removal from the persistent storage of pending
job applications, which sw.js leaves to a placeholder that resolves without
doing anything ("on success, removes that PendingAction", each having a
"unique id"): the stored applications without those of the given id. -/
def dequeueApplication (id : Nat) (store : Store) : Option Store :=
  some { store with applications := store.applications.filter (fun a => !decide (a.id = id)) }

/-! ## Foreground API client (`api.js`) -/

/-- The `options` argument of `APIClient.request`; `none` is an absent
property. -/
structure RequestOptions where
  method : Option String
  headers : Option (List (String × String))
  body : Option Body

/-- The `config` object passed to `fetch` by `APIClient.request`. -/
structure FetchConfig where
  credentials : String
  headers : List (String × String)
  method : Option String
  body : Option Body

/-- An endpoint together with the options a client method passes to
`APIClient.request`. -/
structure ApiCall where
  endpoint : String
  options : RequestOptions

/-- The path part of `baseURL` (api.js line 7): "/api" in both branches. -/
def APIClient.basePath : String := "/api"

/-- The origin part of `baseURL` (api.js line 7). -/
def APIClient.baseOrigin (hostname origin : String) : String :=
  if hostname = "localhost" then "http://localhost:5000" else origin

/-- The field `defaultHeaders` (api.js lines 8-10). -/
def APIClient.defaultHeaders : List (String × String) :=
  [("Content-Type", "application/json")]

/-- Object spread of two header objects: the properties of `a`, overridden by
those of `b`, followed by the properties only `b` has. -/
def objectSpread {β : Type} (a b : List (String × β)) : List (String × β) :=
  a.map (fun kv => (kv.1, (b.lookup kv.1).getD kv.2))
    ++ b.filter (fun kv => (a.lookup kv.1).isNone)

/-- The `config` of `APIClient.request` (api.js lines 15-19): the spread of
`options` comes last and replaces `headers` when `options` has that property. -/
def APIClient.config (options : RequestOptions) : FetchConfig :=
  { credentials := "include"
    headers :=
      match options.headers with
      | some own => own
      | none => objectSpread APIClient.defaultHeaders []
    method := options.method
    body := options.body }

/-- The URL fetched by `APIClient.request` (api.js line 14). -/
def APIClient.url (hostname origin : String) (endpoint : String) : URL :=
  { origin := APIClient.baseOrigin hostname origin
    pathname := APIClient.basePath ++ endpoint
    search := "" }

/-- The request that the worker's fetch listener sees for a client call. -/
def APIClient.toRequest (hostname origin : String) (call : ApiCall) : Request :=
  { url := APIClient.url hostname origin call.endpoint
    method := (APIClient.config call.options).method.getD "GET"
    mode := "cors" }

/-- The method `applyToJob` (api.js lines 93-98). -/
def APIClient.applyToJob (jobId : String) (applicationData : Json) : ApiCall :=
  { endpoint := "/jobs/" ++ jobId ++ "/apply"
    options := { method := some "POST", headers := none, body := some (.json applicationData) } }

/-- The method `updateProfile` (api.js lines 66-71). -/
def APIClient.updateProfile (profileData : Json) : ApiCall :=
  { endpoint := "/profile"
    options := { method := some "PUT", headers := none, body := some (.json profileData) } }

/-- The method `searchJobs` (api.js lines 82-87). -/
def APIClient.searchJobs (searchParams : Json) : ApiCall :=
  { endpoint := "/jobs/search"
    options := { method := some "POST", headers := none, body := some (.json searchParams) } }

/-- JavaScript truthiness of a property value; `none` is `undefined`. -/
def truthy : Option Json → Bool
  | none => false
  | some .null => false
  | some (.bool b) => b
  | some (.num n) => decide (n ≠ 0)
  | some (.str s) => decide (s ≠ "")
  | some (.arr _) => true
  | some (.obj _) => true

/-- What `APIClient.request` throws. -/
inductive ApiError where
  | http (detail : Json) (status : Nat) (data : Json)
  | network
  | notJson
  | typeError

/-- What the promise of `APIClient.request` settles to. -/
inductive ApiResult where
  | returns (data : Json)
  | throws (error : ApiError)
  | pending

/-- The value `errorDetail` (api.js line 26). -/
def errorDetail (data : Json) (status : Nat) : Json :=
  if truthy (data.field "message") then (data.field "message").getD .null
  else if truthy (data.field "error") then (data.field "error").getD .null
  else .str ("HTTP error! status: " ++ toString status)

/-- The body of `APIClient.request` after `fetch` (api.js lines 21-37): every
error is logged and thrown again. -/
def APIClient.request (fetched : Attempt) : ApiResult :=
  match fetched with
  | .pending => .pending
  | .failed => .throws .network
  | .response response =>
    match response.json with
    | none => .throws .notJson
    | some data =>
      if !response.ok then
        match data with
        | .null => .throws .typeError
        | _ => .throws (.http (errorDetail data response.status) response.status data)
      else .returns data

/-- The persistent state of one client installation: the cache namespaces and
the pending-action storage. -/
structure Installation where
  caches : CacheStorage
  store : Store

/-- What a handler's promise gives to the page's `fetch`: `undefined` passed
to `respondWith` is a network error. -/
def Settled.toAttempt : Settled → Attempt
  | .response r => .response r
  | .undefined => .failed
  | .pending => .pending

/-- A `fetch` of the page while the worker controls it: the fetch listener
sees the request first; when it does not respond, the browser performs the
request on the network. -/
def pageFetch (selfOrigin : String) (net : NetOutcome) (request : Request)
    (inst : Installation) : Attempt × Installation :=
  match onFetch selfOrigin net request inst.caches with
  | none => (fetchPlain net, inst)
  | some run => (run.result.toAttempt, { inst with caches := run.caches })

/-! ## Concrete pending actions used in examples -/

/-- Application A, the oldest of three. -/
def applicationA : Application := { id := 1, jobId := "42", extra := [] }

/-- Application B. -/
def applicationB : Application := { id := 2, jobId := "57", extra := [] }

/-- Application C, the newest. -/
def applicationC : Application := { id := 3, jobId := "63", extra := [] }

/-- A storage holding A, B, C in that order. -/
def abcStore : Store :=
  { applications := [applicationA, applicationB, applicationC]
    profileUpdates := [], jobSearches := [] }

/-- An environment in which the second replay rejects and every other replay
returns 200. -/
def abcWorld : SyncWorld :=
  { net := fun i _ => if i = 1 then .rejects else .response (okResponse "done")
    notifyRejects := fun _ => false
    lengthText := fun _ => none }

/-- An environment in which every replay rejects. -/
def offlineWorld : SyncWorld :=
  { net := fun _ _ => .rejects, notifyRejects := fun _ => false
    lengthText := fun _ => none }

/-- The request the fetch listener sees when the page applies to job 42. -/
def applyRequest : Request :=
  APIClient.toRequest "app.example" "https://app.example"
    (APIClient.applyToJob "42" (.obj []))

/-- An installation with no cache namespace and no pending action. -/
def emptyInstallation : Installation :=
  { caches := [], store := { applications := [], profileUpdates := [], jobSearches := [] } }

/-! ## Cache entries -/

/-- The entry for a key in the namespace of a given name, if both exist. -/
def CacheStorage.entry (name : String) (key : URL) (cs : CacheStorage) : Option Response :=
  (cs.lookup name).bind (Cache.matchRequest key)

/-- One fetch of `cache.addAll`: the URL with its response when that response
is ok. -/
def fetchOk (fetchUrl : URL → NetOutcome) (u : URL) : Option (URL × Response) :=
  match fetchPlain (fetchUrl u) with
  | .response r => if r.ok then some (u, r) else none
  | _ => none

/-- The puts of `cache.addAll` on the namespace `name`, in order. -/
def storeAll (name : String) (entries : List (URL × Response)) (caches : CacheStorage) :
    CacheStorage :=
  entries.foldl (fun acc e => acc.putIn name e.1 e.2) caches

/-! ## Sync dispatch -/

/-- The tag `SYNC_TAGS.APPLY_JOB` (sw.js line 39). -/
def SYNC_TAGS.APPLY_JOB : String := "apply-job"

/-- The tag `SYNC_TAGS.UPDATE_PROFILE` (sw.js line 40). -/
def SYNC_TAGS.UPDATE_PROFILE : String := "update-profile"

/-- The tag `SYNC_TAGS.SEARCH_JOBS` (sw.js line 41). -/
def SYNC_TAGS.SEARCH_JOBS : String := "search-jobs"

/-- The six storage helper functions of sw.js, over a storage state `σ`. -/
structure Helpers (σ : Type) where
  getPendingApplications : σ → Option (List Application)
  removePendingApplication : Nat → σ → Option σ
  getPendingProfileUpdates : σ → Option (List ProfileUpdate)
  removePendingProfileUpdate : Nat → σ → Option σ
  getPendingJobSearches : σ → Option (List JobSearch)
  removePendingJobSearch : Nat → σ → Option σ

/-- The helpers as sw.js defines them (lines 425-450). -/
def swHelpers : Helpers Store :=
  { getPendingApplications := getPendingApplications
    removePendingApplication := removePendingApplication
    getPendingProfileUpdates := getPendingProfileUpdates
    removePendingProfileUpdate := removePendingProfileUpdate
    getPendingJobSearches := getPendingJobSearches
    removePendingJobSearch := removePendingJobSearch }

/-- The `sync` listener (sw.js lines 225-241) over storage helpers: the switch
on `event.tag`; the default branch only logs. -/
def onSyncWith {σ : Type} (helpers : Helpers σ) (tag : String) (world : SyncWorld)
    (store : σ) : σ × List SyncEffect :=
  if tag = SYNC_TAGS.APPLY_JOB then
    syncJobApplicationsWith helpers.getPendingApplications helpers.removePendingApplication
      world store
  else if tag = SYNC_TAGS.UPDATE_PROFILE then
    syncProfileUpdatesWith helpers.getPendingProfileUpdates helpers.removePendingProfileUpdate
      world store
  else if tag = SYNC_TAGS.SEARCH_JOBS then
    syncJobSearchesWith helpers.getPendingJobSearches helpers.removePendingJobSearch
      world store
  else (store, [])

/-- The `sync` listener with the helpers of sw.js. -/
def onSync (tag : String) (world : SyncWorld) (store : Store) : Store × List SyncEffect :=
  onSyncWith swHelpers tag world store

/-- The titles of the notifications requested by a sync routine, in order. -/
def notificationTitles : List SyncEffect → List String
  | [] => []
  | .showNotification title _ _ :: rest => title :: notificationTitles rest
  | _ :: rest => notificationTitles rest

/-! ## Push notifications -/

/-- One entry of `options.actions`. -/
structure NotificationAction where
  action : String
  title : String
  icon : String
deriving DecidableEq, Repr

/-- The `options` passed to `registration.showNotification` by the push
listener. The order of the entries of `data` carries no meaning. -/
structure NotificationOptions where
  body : Json
  icon : String
  badge : String
  vibrate : List Nat
  data : List (String × Json)
  actions : List NotificationAction

/-- The initial `options` of the push listener (sw.js lines 362-383); `now` is
the value of `Date.now()`. -/
def defaultPushOptions (now : Int) : NotificationOptions :=
  { body := .str "Check out new job opportunities!"
    icon := "/logo.png"
    badge := "/logo.png"
    vibrate := [200, 100, 200]
    data := [("dateOfArrival", .num now), ("primaryKey", .num 1)]
    actions :=
      [ { action := "explore", title := "View Jobs", icon := "/logo.png" },
        { action := "close", title := "Close", icon := "/logo.png" } ] }

/-- The index keys "0", "1", ... paired with the items of a list. -/
def indexed {β : Type} (items : List β) : List (String × β) :=
  (List.range items.length).zip items |>.map (fun p => (toString p.1, p.2))

/-- The own enumerable properties that a spread `...v` copies; `none` is
`undefined`. A string is taken to lie in the Basic Multilingual Plane, where
code units and characters coincide. -/
def ownProperties : Option Json → List (String × Json)
  | some (.obj fields) => fields
  | some (.arr items) => indexed items
  | some (.str text) => indexed (text.data.map (fun c => Json.str (String.singleton c)))
  | _ => []

/-- What the push listener did: one call of `registration.showNotification`,
or an exception before any call. -/
inductive PushRun where
  | shown (title : String) (options : NotificationOptions)
  | throws

/-- The `push` listener (sw.js lines 359-394). `data` is `event.data`: absent,
or a payload whose `json()` either throws (text that is not JSON) or gives a
value. -/
def onPush (now : Int) (data : Option Body) : PushRun :=
  match data with
  | none => .shown "AI Job Chommie" (defaultPushOptions now)
  | some (.text _) => .throws
  | some (.json .null) => .throws
  | some (.json pushData) =>
    .shown "AI Job Chommie"
      { defaultPushOptions now with
        body :=
          if truthy (pushData.field "body") then (pushData.field "body").getD .null
          else (defaultPushOptions now).body
        data := objectSpread (defaultPushOptions now).data
          (ownProperties (pushData.field "data")) }

/-! ## Notification clicks -/

/-- An open window client; `focusable` is the test `'focus' in client`. -/
structure WindowClient where
  url : String
  focusable : Bool
deriving DecidableEq, Repr

/-- What the click handler does after closing the notification. -/
inductive ClickOutcome where
  | focused (client : WindowClient)
  | opened (url : String)
  | nothing
deriving DecidableEq, Repr

/-- What the `notificationclick` listener did. -/
structure ClickRun where
  closed : Bool
  outcome : ClickOutcome
deriving DecidableEq, Repr

/-- The `notificationclick` listener (sw.js lines 399-419). `action` is
`event.action`, which the listener only logs; `canOpenWindow` is the test
`clients.openWindow`. -/
def onNotificationClick (selfOrigin : String) (canOpenWindow : Bool) (_action : String)
    (clientList : List WindowClient) : ClickRun :=
  { closed := true
    outcome :=
      match clientList.find? (fun client => decide (client.url = selfOrigin) && client.focusable) with
      | some client => .focused client
      | none => if canOpenWindow then .opened "/" else .nothing }

/-! ## Further concrete inputs -/

/-- A queued job search. -/
def searchS : JobSearch := { id := 7, params := .obj [("keywords", .str "lean")] }

/-- An environment in which every replay returns 200 with an empty job list. -/
def noMatchWorld : SyncWorld :=
  { net := fun _ _ => .response
      { status := 200, statusText := "OK", headers := [],
        body := .json (.obj [("jobs", .arr [])]) }
    notifyRejects := fun _ => false
    lengthText := fun _ => none }

/-- An environment in which every replay returns 200 with a `jobs` object
whose `length` is the string "5", which the platform finds greater than 0. -/
def stringLengthWorld : SyncWorld :=
  { net := fun _ _ => .response
      { status := 200, statusText := "OK", headers := [],
        body := .json (.obj [("jobs", .obj [("length", .str "5")])]) }
    notifyRejects := fun _ => false
    lengthText := fun v =>
      match v with
      | .str "5" => some "5"
      | _ => none }

/-- The helpers of sw.js with the two application helpers replaced by the
queue storage of the data model. -/
def queueHelpers : Helpers Store :=
  { swHelpers with
    getPendingApplications := queuedApplications
    removePendingApplication := dequeueApplication }

/-- Helpers whose job-search storage always returns the one search `searchS`
and whose other functions are those of sw.js. -/
def oneSearchHelpers : Helpers Store :=
  { swHelpers with getPendingJobSearches := fun _ => some [searchS] }

/-- An app window showing the start page. -/
def appWindow : WindowClient := { url := "https://app.example/", focusable := true }

/-- The cache namespaces left by version 1 of the worker. -/
def versionOneCaches : CacheStorage :=
  [("ai-job-chommie-v1.0.0", [(logoRequest.url, okResponse "old logo")])]

/-- The cache namespaces after version 2 has installed over those of version 1
and a `CLEAR_CACHE` message has been handled. -/
def clearedOverVersionOne : CacheStorage :=
  (onMessage staleNet (some { type := "CLEAR_CACHE", urls := none })
    (install staleNet "https://app.example" versionOneCaches).1).caches

/-! ## The methods of `APIClient` (`api.js`) -/

/-- The `options` of a call `this.request(endpoint)` without second argument. -/
def noOptions : RequestOptions :=
  { method := none, headers := none, body := none }

/-- The `options` with a method and the body `JSON.stringify(value)`. -/
def jsonOptions (method : String) (value : Json) : RequestOptions :=
  { method := some method, headers := none, body := some (.json value) }

/-- The `options` with a method only. -/
def methodOptions (method : String) : RequestOptions :=
  { method := some method, headers := none, body := none }

/-- The method `login` (api.js lines 41-46). -/
def APIClient.login (email password : Json) : ApiCall :=
  { endpoint := "/auth/login"
    options := jsonOptions "POST" (.obj [("email", email), ("password", password)]) }

/-- The method `register` (api.js lines 48-53). -/
def APIClient.register (userData : Json) : ApiCall :=
  { endpoint := "/auth/register", options := jsonOptions "POST" userData }

/-- The method `logout` (api.js lines 55-59). -/
def APIClient.logout : ApiCall :=
  { endpoint := "/auth/logout", options := methodOptions "POST" }

/-- The method `getCurrentUser` (api.js lines 61-63). -/
def APIClient.getCurrentUser : ApiCall :=
  { endpoint := "/auth/me", options := noOptions }

/-- The method `uploadCV` (api.js lines 73-79); `formData` stands for the
form data given as body, and `headers` is the empty object. -/
def APIClient.uploadCV (formData : String) : ApiCall :=
  { endpoint := "/profile/cv"
    options := { method := some "POST", headers := some [], body := some (.text formData) } }

/-- The method `getJob` (api.js lines 89-91). -/
def APIClient.getJob (jobId : String) : ApiCall :=
  { endpoint := "/jobs/" ++ jobId, options := noOptions }

/-- The method `getUserApplications` (api.js lines 100-102). -/
def APIClient.getUserApplications : ApiCall :=
  { endpoint := "/applications", options := noOptions }

/-- The method `updateApplicationStatus` (api.js lines 104-109). -/
def APIClient.updateApplicationStatus (appId : String) (status : Json) : ApiCall :=
  { endpoint := "/applications/" ++ appId
    options := jsonOptions "PUT" (.obj [("status", status)]) }

/-- The method `analyzeCV` (api.js lines 112-117). -/
def APIClient.analyzeCV (cvText : Json) : ApiCall :=
  { endpoint := "/analyze-cv", options := jsonOptions "POST" (.obj [("cv_text", cvText)]) }

/-- The method `matchJobs` (api.js lines 119-124). -/
def APIClient.matchJobs (preferences : Json) : ApiCall :=
  { endpoint := "/match-jobs", options := jsonOptions "POST" preferences }

/-- The method `generateCoverLetter` (api.js lines 126-131). -/
def APIClient.generateCoverLetter (jobId : Json) : ApiCall :=
  { endpoint := "/generate-cover-letter"
    options := jsonOptions "POST" (.obj [("job_id", jobId)]) }

/-- The method `getSkillRecommendations` (api.js lines 133-138). -/
def APIClient.getSkillRecommendations (targetRole : Json) : ApiCall :=
  { endpoint := "/skill-recommendations"
    options := jsonOptions "POST" (.obj [("target_role", targetRole)]) }

/-- The method `generateInterviewQuestions` (api.js lines 140-145). -/
def APIClient.generateInterviewQuestions (jobTitle company : Json) : ApiCall :=
  { endpoint := "/interview-prep"
    options := jsonOptions "POST" (.obj [("job_title", jobTitle), ("company", company)]) }

/-- The method `initializePayment` (api.js lines 148-153). -/
def APIClient.initializePayment (plan : Json) : ApiCall :=
  { endpoint := "/payment/initialize", options := jsonOptions "POST" (.obj [("plan", plan)]) }

/-- The method `verifyPayment` (api.js lines 155-160). -/
def APIClient.verifyPayment (reference : Json) : ApiCall :=
  { endpoint := "/payment/verify"
    options := jsonOptions "POST" (.obj [("reference", reference)]) }

/-- The method `getPaymentConfig` (api.js lines 162-164). -/
def APIClient.getPaymentConfig : ApiCall :=
  { endpoint := "/payment/config", options := noOptions }

/-- The method `getSubscriptionStatus` (api.js lines 166-168). -/
def APIClient.getSubscriptionStatus : ApiCall :=
  { endpoint := "/subscription/status", options := noOptions }

/-- The method `cancelSubscription` (api.js lines 170-174). -/
def APIClient.cancelSubscription : ApiCall :=
  { endpoint := "/subscription/cancel", options := methodOptions "POST" }

/-- The method `scrapeJobs` (api.js lines 177-182). -/
def APIClient.scrapeJobs (params : Json) : ApiCall :=
  { endpoint := "/scrape/jobs", options := jsonOptions "POST" params }

/-- The method `autoScrapeJobs` (api.js lines 184-188). -/
def APIClient.autoScrapeJobs : ApiCall :=
  { endpoint := "/scrape/auto-scrape", options := methodOptions "POST" }

/-- The method `getScrapeStatus` (api.js lines 190-192). -/
def APIClient.getScrapeStatus : ApiCall :=
  { endpoint := "/scrape/status", options := noOptions }

/-- The method `getJobMarketInsights` (api.js lines 194-196). -/
def APIClient.getJobMarketInsights : ApiCall :=
  { endpoint := "/scrape/job-market-insights", options := noOptions }

/-- The method `getTrendingSkills` (api.js lines 198-200). -/
def APIClient.getTrendingSkills : ApiCall :=
  { endpoint := "/scrape/trending-skills", options := noOptions }

/-- A call of one of the methods of `APIClient`, with its arguments. -/
inductive ApiMethod where
  | login (email password : Json)
  | register (userData : Json)
  | logout
  | getCurrentUser
  | updateProfile (profileData : Json)
  | uploadCV (formData : String)
  | searchJobs (searchParams : Json)
  | getJob (jobId : String)
  | applyToJob (jobId : String) (applicationData : Json)
  | getUserApplications
  | updateApplicationStatus (appId : String) (status : Json)
  | analyzeCV (cvText : Json)
  | matchJobs (preferences : Json)
  | generateCoverLetter (jobId : Json)
  | getSkillRecommendations (targetRole : Json)
  | generateInterviewQuestions (jobTitle company : Json)
  | initializePayment (plan : Json)
  | verifyPayment (reference : Json)
  | getPaymentConfig
  | getSubscriptionStatus
  | cancelSubscription
  | scrapeJobs (params : Json)
  | autoScrapeJobs
  | getScrapeStatus
  | getJobMarketInsights
  | getTrendingSkills

/-- The endpoint and options that a method call passes to `request`. -/
def ApiMethod.call : ApiMethod → ApiCall
  | .login email password => APIClient.login email password
  | .register userData => APIClient.register userData
  | .logout => APIClient.logout
  | .getCurrentUser => APIClient.getCurrentUser
  | .updateProfile profileData => APIClient.updateProfile profileData
  | .uploadCV formData => APIClient.uploadCV formData
  | .searchJobs searchParams => APIClient.searchJobs searchParams
  | .getJob jobId => APIClient.getJob jobId
  | .applyToJob jobId applicationData => APIClient.applyToJob jobId applicationData
  | .getUserApplications => APIClient.getUserApplications
  | .updateApplicationStatus appId status => APIClient.updateApplicationStatus appId status
  | .analyzeCV cvText => APIClient.analyzeCV cvText
  | .matchJobs preferences => APIClient.matchJobs preferences
  | .generateCoverLetter jobId => APIClient.generateCoverLetter jobId
  | .getSkillRecommendations targetRole => APIClient.getSkillRecommendations targetRole
  | .generateInterviewQuestions jobTitle company =>
    APIClient.generateInterviewQuestions jobTitle company
  | .initializePayment plan => APIClient.initializePayment plan
  | .verifyPayment reference => APIClient.verifyPayment reference
  | .getPaymentConfig => APIClient.getPaymentConfig
  | .getSubscriptionStatus => APIClient.getSubscriptionStatus
  | .cancelSubscription => APIClient.cancelSubscription
  | .scrapeJobs params => APIClient.scrapeJobs params
  | .autoScrapeJobs => APIClient.autoScrapeJobs
  | .getScrapeStatus => APIClient.getScrapeStatus
  | .getJobMarketInsights => APIClient.getJobMarketInsights
  | .getTrendingSkills => APIClient.getTrendingSkills

/-- The HTTP method of the fetch issued for a call: `fetch` uses GET when the
config has no `method`. -/
def ApiCall.httpMethod (call : ApiCall) : String :=
  (APIClient.config call.options).method.getD "GET"

/-- The body of the fetch issued for a call. -/
def ApiCall.body (call : ApiCall) : Option Body :=
  (APIClient.config call.options).body

/-! ## Page state and UI helpers (`app.js`, `auth.js`) -/

/-- The global variables of the page that the handlers read and write;
`currentUser` is `Json.null` when it is `null`. -/
structure ClientState where
  currentUser : Json
  isLoggedIn : Bool
  isLoading : Bool

/-- Calls made by a page handler, in order. The message of `showAlert` is
`none` when it is taken from a caught error. `missingMethod` is the call of a
method that `APIClient` does not define, which throws a TypeError. -/
inductive UiEffect where
  | apiCall (call : ApiCall)
  | missingMethod (name : String)
  | showAlert (message : Option String) (type : String)
  | navigateToPage (pageName : String)
  | showSuccess (message : String)
  | updateUIForLoggedOutUser
  | displayJobResults (jobs : Json)
  | cacheSearchResults (searchParams : Json)
  | markApplied (jobId : String)

/-- How the promise of a page handler ends. -/
inductive Completion where
  | fulfilled
  | rejected
  | pending
deriving DecidableEq, Repr

/-- The run of a page handler. -/
structure UiRun where
  state : ClientState
  effects : List UiEffect
  completion : Completion

/-- The requests to the API among the calls of a page handler, in order. -/
def apiCallsOf : List UiEffect → List ApiCall
  | [] => []
  | .apiCall call :: rest => call :: apiCallsOf rest
  | _ :: rest => apiCallsOf rest

/-- The function `isAuthenticated` (auth.js lines 113-115), as a truth value. -/
def isAuthenticated (state : ClientState) : Bool :=
  truthy (some state.currentUser) && truthy (state.currentUser.field "email")

/-- The function `requireAuth` (auth.js lines 118-125): its return value and
the calls it makes. -/
def requireAuth (state : ClientState) : Bool × List UiEffect :=
  if !isAuthenticated state then
    (false, [.showAlert (some "Please log in to access this feature.") "warning",
             .navigateToPage "login"])
  else (true, [])

/-- The page-specific initialisation that `navigateToPage` runs after showing
a page (app.js lines 124-137), by name of the function called. -/
def pageInitializer (pageName : String) : Option String :=
  if pageName = "dashboard" then some "initializeDashboard"
  else if pageName = "jobs" then some "loadJobListings"
  else if pageName = "profile" then some "loadUserProfile"
  else if pageName = "applications" then some "loadUserApplications"
  else none

/-- The function `showLoading` of app.js (lines 144-154), on the state. -/
def showLoading (state : ClientState) : ClientState :=
  { state with isLoading := true }

/-- The function `hideLoading` of app.js (lines 157-163), on the state. -/
def hideLoading (state : ClientState) : ClientState :=
  { state with isLoading := false }

/-! ## Guarded operations (`ui-components.js`) -/

/-- The function `initializeDashboard` (ui-components.js lines 28-35) with the
three loaders it starts: `updateDashboardStats` and `loadJobRecommendations`
call methods that `APIClient` lacks, `loadRecentApplications` calls
`getUserApplications`. -/
def initializeDashboard (state : ClientState) : UiRun :=
  if !(requireAuth state).1 then
    { state := state, effects := (requireAuth state).2, completion := .fulfilled }
  else
    { state := state
      effects := [.missingMethod "getDashboardStats", .apiCall APIClient.getUserApplications,
                  .missingMethod "getJobRecommendations"]
      completion := .fulfilled }

/-- The function `handleAutoApply` (ui-components.js lines 174-199);
`confirmed` is the answer of `confirm`. -/
def handleAutoApply (confirmed : Bool) (state : ClientState) : UiRun :=
  if !(requireAuth state).1 then
    { state := state, effects := (requireAuth state).2, completion := .fulfilled }
  else if !confirmed then
    { state := state, effects := [], completion := .fulfilled }
  else
    { state := hideLoading (showLoading state)
      effects := [.missingMethod "autoApplyToJobs", .showAlert none "error"]
      completion := .fulfilled }

/-- The function `applyToJob` (ui-components.js lines 202-232); `fetched` is
what the fetch of the API call gives. -/
def applyToJob (jobId : String) (fetched : Attempt) (state : ClientState) : UiRun :=
  if !(requireAuth state).1 then
    { state := state, effects := (requireAuth state).2, completion := .fulfilled }
  else
    match APIClient.request fetched with
    | .pending =>
      { state := showLoading state
        effects := [.apiCall (APIClient.applyToJob jobId (.obj []))]
        completion := .pending }
    | .returns result =>
      if truthy (some result) && truthy (result.field "success") then
        { state := hideLoading (showLoading state)
          effects := [.apiCall (APIClient.applyToJob jobId (.obj [])),
                      .showAlert (some "Application submitted successfully!") "success",
                      .markApplied jobId]
          completion := .fulfilled }
      else
        { state := hideLoading (showLoading state)
          effects := [.apiCall (APIClient.applyToJob jobId (.obj [])),
                      .showAlert none "error"]
          completion := .fulfilled }
    | .throws _ =>
      { state := hideLoading (showLoading state)
        effects := [.apiCall (APIClient.applyToJob jobId (.obj [])), .showAlert none "error"]
        completion := .fulfilled }

/-- The function `loadUserProfile` (ui-components.js lines 247-266): the
method `getUserProfile` does not exist on `APIClient`. -/
def loadUserProfile (state : ClientState) : UiRun :=
  if !(requireAuth state).1 then
    { state := state, effects := (requireAuth state).2, completion := .fulfilled }
  else
    { state := state, effects := [.missingMethod "getUserProfile"], completion := .fulfilled }

/-- The function `loadUserApplications` (ui-components.js lines 269-295). -/
def loadUserApplications (fetched : Attempt) (state : ClientState) : UiRun :=
  if !(requireAuth state).1 then
    { state := state, effects := (requireAuth state).2, completion := .fulfilled }
  else
    { state := state, effects := [.apiCall APIClient.getUserApplications]
      completion :=
        match APIClient.request fetched with
        | .pending => .pending
        | _ => .fulfilled }

/-! ## Job search form (`ui-components.js`) -/

/-- The white space and line terminators that `String.prototype.trim`
removes. -/
def isJsWhitespace (c : Char) : Bool :=
  [9, 10, 11, 12, 13, 32, 160, 5760, 8232, 8233, 8239, 8287, 12288, 65279].contains c.toNat
    || (decide (8192 ≤ c.toNat) && decide (c.toNat ≤ 8202))

/-- The method `trim` of strings. -/
def jsTrim (s : String) : String :=
  String.mk ((s.data.dropWhile isJsWhitespace).reverse.dropWhile isJsWhitespace).reverse

/-- The object `searchParams` of `handleJobSearch` (ui-components.js lines
110-116). -/
def searchParamsOf (keywords location jobType : String) : Json :=
  .obj [ ("keywords", .str (jsTrim keywords)), ("location", .str (jsTrim location)),
         ("jobType", .str jobType), ("page", .num 1), ("limit", .num 20) ]

/-- The function `handleJobSearch` (ui-components.js lines 95-140); the three
strings are the values of the form fields. When `results.jobs` is truthy but
not an array, `jobs.map` throws in `displayJobResults` and the catch block
reports it. -/
def handleJobSearch (keywords location jobType : String) (fetched : Attempt)
    (state : ClientState) : UiRun :=
  if jsTrim keywords = "" then
    { state := state
      effects := [.showAlert (some "Please enter job keywords to search.") "warning"]
      completion := .fulfilled }
  else
    let searchParams := searchParamsOf keywords location jobType
    match APIClient.request fetched with
    | .pending =>
      { state := showLoading state
        effects := [.apiCall (APIClient.searchJobs searchParams)]
        completion := .pending }
    | .returns results =>
      if truthy (some results) && truthy (results.field "jobs") then
        match results.field "jobs" with
        | some (.arr jobs) =>
          { state := hideLoading (showLoading state)
            effects := [.apiCall (APIClient.searchJobs searchParams),
                        .displayJobResults (.arr jobs), .cacheSearchResults searchParams,
                        .showAlert
                          (some ("Found " ++ toString jobs.length ++ " job opportunities!"))
                          "success"]
            completion := .fulfilled }
        | other =>
          { state := hideLoading (showLoading state)
            effects := [.apiCall (APIClient.searchJobs searchParams),
                        .displayJobResults (other.getD .null), .showAlert none "error"]
            completion := .fulfilled }
      else
        { state := hideLoading (showLoading state)
          effects := [.apiCall (APIClient.searchJobs searchParams),
                      .showAlert (some "No jobs found. Try different keywords.") "info"]
          completion := .fulfilled }
    | .throws _ =>
      { state := hideLoading (showLoading state)
        effects := [.apiCall (APIClient.searchJobs searchParams), .showAlert none "error"]
        completion := .fulfilled }

/-! ## Logout (`api.js`) -/

/-- Run helper calls in order until one throws: the calls made, and whether
one threw. `throwsAt` tells which helper calls throw. -/
def runCalls (throwsAt : UiEffect → Bool) : List UiEffect → List UiEffect × Bool
  | [] => ([], false)
  | call :: rest =>
    if throwsAt call then ([call], true)
    else ((call :: (runCalls throwsAt rest).1), (runCalls throwsAt rest).2)

/-- The assignments `currentUser = null; isLoggedIn = false`. -/
def loggedOut (state : ClientState) : ClientState :=
  { state with currentUser := .null, isLoggedIn := false }

/-- The catch block of `handleLogout` (api.js lines 259-266), entered after
the calls `before`. -/
def logoutCatch (throwsAt : UiEffect → Bool) (before : List UiEffect) (state : ClientState) :
    UiRun :=
  { state := loggedOut state
    effects := before
      ++ (runCalls throwsAt [.updateUIForLoggedOutUser, .navigateToPage "home"]).1
    completion :=
      if (runCalls throwsAt [.updateUIForLoggedOutUser, .navigateToPage "home"]).2
      then .rejected else .fulfilled }

/-- The function `handleLogout` of api.js (lines 251-267); `fetched` is what
the fetch of `api.logout()` gives. -/
def ApiJs.handleLogout (throwsAt : UiEffect → Bool) (fetched : Attempt)
    (state : ClientState) : UiRun :=
  match APIClient.request fetched with
  | .pending =>
    { state := state, effects := [.apiCall APIClient.logout], completion := .pending }
  | .throws _ => logoutCatch throwsAt [.apiCall APIClient.logout] state
  | .returns _ =>
    if (runCalls throwsAt [.updateUIForLoggedOutUser, .showSuccess "Logged out successfully",
          .navigateToPage "home"]).2 then
      logoutCatch throwsAt
        (.apiCall APIClient.logout
          :: (runCalls throwsAt [.updateUIForLoggedOutUser,
                .showSuccess "Logged out successfully", .navigateToPage "home"]).1)
        (loggedOut state)
    else
      { state := loggedOut state
        effects := [.apiCall APIClient.logout, .updateUIForLoggedOutUser,
                    .showSuccess "Logged out successfully", .navigateToPage "home"]
        completion := .fulfilled }

/-! ## User initials (`app.js`, `api.js`) -/

/-- The three properties of `currentUser` that `updateUIForLoggedInUser`
reads, each absent or a string: `firstName`, `lastName`, `email` in app.js,
`first_name`, `last_name`, `email` in api.js. -/
structure UserNames where
  first : Option String
  last : Option String
  email : Option String

/-- The expression `value?.[0]` on an absent value or a string: `none` is
`undefined`. The string is taken to start in the Basic Multilingual Plane. -/
def firstCharacter : Option String → Option String
  | none => none
  | some s => s.data.head?.map String.singleton

/-- The result of `a + b` on two values that are `undefined` or strings;
`none` is `NaN`, the sum of `undefined` and `undefined`. -/
def jsAdd : Option String → Option String → Option String
  | some a, some b => some (a ++ b)
  | some a, none => some (a ++ "undefined")
  | none, some b => some ("undefined" ++ b)
  | none, none => none

/-- The expression `email?.[0]?.toUpperCase()`; `toUpperCase` is the method of
the platform. -/
def emailInitial (toUpperCase : String → String) (email : Option String) : Option String :=
  (firstCharacter email).map toUpperCase

/-- The first operand of a chain of `||` that is a non-empty string, else the
last operand. -/
def orElseText (candidates : List (Option String)) (last : String) : String :=
  match candidates.find? (fun c => decide (c ≠ none ∧ c ≠ some "")) with
  | some (some text) => text
  | _ => last

/-- The text that `updateUIForLoggedInUser` of app.js (lines 210-215) gives to
the initials element. -/
def AppJs.initialsText (toUpperCase : String → String) (user : UserNames) : String :=
  orElseText
    [jsAdd (firstCharacter user.first) (firstCharacter user.last),
     emailInitial toUpperCase user.email] "U"

/-- The text that `updateUIForLoggedInUser` of api.js (lines 294-297) gives to
the initials element. -/
def ApiJs.initialsText (toUpperCase : String → String) (user : UserNames) : String :=
  orElseText
    [some ((firstCharacter user.first).getD "" ++ (firstCharacter user.last).getD ""),
     emailInitial toUpperCase user.email] "U"

/-! ## Concrete page inputs -/

/-- A state with nobody logged in. -/
def loggedOutState : ClientState :=
  { currentUser := .null, isLoggedIn := false, isLoading := false }

/-- A state with Jane logged in. -/
def janeState : ClientState :=
  { currentUser := .obj [("email", .str "jane@example.org"), ("firstName", .str "Jane")]
    isLoggedIn := true, isLoading := false }

/-- A page that loads api.js without app.js: `navigateToPage`, which only
app.js (line 103) defines, is not defined, so every call of it throws a
ReferenceError; the helpers that api.js defines itself do not throw. -/
def navigateToPageUndefined : UiEffect → Bool
  | .navigateToPage _ => true
  | _ => false

/-- A 200 response with a JSON body. -/
def jsonResponse (status : Nat) (v : Json) : Response :=
  { status := status, statusText := "", headers := [], body := .json v }

/-- Upper-casing of the letters a to z, standing for `toUpperCase` on such
text. -/
def asciiUpper (s : String) : String :=
  String.mk (s.data.map Char.toUpper)

/-- A user record with a last name and an email but no first name. -/
def doeUser : UserNames :=
  { first := none, last := some "Doe", email := some "jane@example.org" }

end ServiceWorker

namespace ServiceWorker

/-! ## Lemmas on the cache model -/

theorem Cache.matchRequest_put (key : URL) (r : Response) (c : Cache) :
    Cache.matchRequest key (Cache.put key r c) = some r := by
  unfold Cache.matchRequest Cache.put
  rw [List.find?_append]
  have h : (List.filter (fun e => !decide (e.1 = key)) c).find?
      (fun e => decide (e.1 = key)) = none := by
    rw [List.find?_eq_none]
    intro e he
    have := (List.mem_filter.mp he).2
    simpa using this
  simp [h]

theorem matchRequest_putIn_of_has (name : String) (key : URL) (r : Response) :
    ∀ cs : CacheStorage, cs.has name = true → precedingMiss name key cs = true →
      (cs.putIn name key r).matchRequest key = some r := by
  intro cs
  induction cs with
  | nil => intro h; simp [CacheStorage.has] at h
  | cons ns rest ih =>
    intro hhas hmiss
    by_cases hn : ns.1 = name
    · simp [CacheStorage.putIn, CacheStorage.matchRequest, hn, Cache.matchRequest_put]
    · have hhas' : CacheStorage.has name rest = true := by
        simpa [CacheStorage.has, hn] using hhas
      have hm : (Cache.matchRequest key ns.2).isNone = true ∧ precedingMiss name key rest = true := by
        simpa [precedingMiss, List.takeWhile_cons, hn] using hmiss
      have hnone : Cache.matchRequest key ns.2 = none := Option.isNone_iff_eq_none.mp hm.1
      have := ih hhas' hm.2
      simp only [CacheStorage.putIn, CacheStorage.matchRequest] at this ⊢
      simp [hn, hnone, this]

theorem matchRequest_putIn_append (name : String) (key : URL) (r : Response) :
    ∀ cs : CacheStorage, cs.has name = false → precedingMiss name key cs = true →
      ((cs ++ [(name, [])]).putIn name key r).matchRequest key = some r := by
  intro cs
  induction cs with
  | nil =>
    intro _ _
    simp [CacheStorage.putIn, CacheStorage.matchRequest, Cache.matchRequest_put]
  | cons ns rest ih =>
    intro hhas hmiss
    have hn : ¬ ns.1 = name := by
      intro h; simp [CacheStorage.has, h] at hhas
    have hhas' : CacheStorage.has name rest = false := by
      simpa [CacheStorage.has, hn] using hhas
    have hm : (Cache.matchRequest key ns.2).isNone = true ∧ precedingMiss name key rest = true := by
      simpa [precedingMiss, List.takeWhile_cons, hn] using hmiss
    have hnone : Cache.matchRequest key ns.2 = none := Option.isNone_iff_eq_none.mp hm.1
    have := ih hhas' hm.2
    simp only [CacheStorage.putIn, CacheStorage.matchRequest] at this
    simp only [CacheStorage.putIn, CacheStorage.matchRequest, List.cons_append, List.map_cons,
      if_neg hn, List.findSome?_cons, hnone]
    exact this

theorem matchRequest_cacheResponse (name : String) (request : Request) (r : Response)
    (cs : CacheStorage) (hmiss : precedingMiss name request.url cs = true) :
    (cacheResponse name request r cs).matchRequest request.url = some r := by
  unfold cacheResponse CacheStorage.openCache
  by_cases h : cs.has name = true
  · simp only [h, if_true]
    exact matchRequest_putIn_of_has name request.url r cs h hmiss
  · have h' : cs.has name = false := by simpa using h
    simp only [h', Bool.false_eq_true, if_false]
    exact matchRequest_putIn_append name request.url r cs h' hmiss

theorem has_openCache (name : String) (cs : CacheStorage) :
    (cs.openCache name).has name = true := by
  unfold CacheStorage.openCache
  by_cases h : cs.has name = true
  · simp [h]
  · rw [if_neg h]
    simp [CacheStorage.has]

theorem lookup_putIn_of_has (name : String) (key : URL) (r : Response) :
    ∀ cs : CacheStorage, cs.has name = true →
      ((cs.putIn name key r).lookup name).bind (Cache.matchRequest key) = some r := by
  intro cs
  induction cs with
  | nil => intro h; simp [CacheStorage.has] at h
  | cons ns rest ih =>
    intro hhas
    by_cases hn : ns.1 = name
    · simp [CacheStorage.putIn, CacheStorage.lookup, hn, Cache.matchRequest_put]
    · have hhas' : CacheStorage.has name rest = true := by
        simpa [CacheStorage.has, hn] using hhas
      have := ih hhas'
      simp only [CacheStorage.putIn, CacheStorage.lookup] at this
      simp only [CacheStorage.putIn, CacheStorage.lookup, List.map_cons, if_neg hn,
        List.find?_cons, decide_eq_false hn]
      exact this

theorem lookup_cacheResponse (name : String) (request : Request) (r : Response)
    (cs : CacheStorage) :
    ((cacheResponse name request r cs).lookup name).bind (Cache.matchRequest request.url)
      = some r :=
  lookup_putIn_of_has name request.url r (cs.openCache name) (has_openCache name cs)

theorem foldl_delete_eq_filter (names : List String) :
    ∀ acc : CacheStorage,
      names.foldl
        (fun acc cacheName =>
          if cacheName ≠ CACHE_NAME ∧ cacheName ≠ API_CACHE_NAME then
            CacheStorage.deleteCache cacheName acc
          else acc) acc
      = acc.filter (fun ns =>
          !(decide (ns.1 ∈ names) && !(decide (ns.1 = CACHE_NAME) || decide (ns.1 = API_CACHE_NAME)))) := by
  induction names with
  | nil => intro acc; simp
  | cons n rest ih =>
    intro acc
    rw [List.foldl_cons, ih]
    by_cases hn : n ≠ CACHE_NAME ∧ n ≠ API_CACHE_NAME
    · rw [if_pos hn]
      unfold CacheStorage.deleteCache
      rw [List.filter_filter]
      apply List.filter_congr
      intro ns _
      by_cases h : ns.1 = n
      · simp [h, hn.1, hn.2]
      · simp [h]
    · rw [if_neg hn]
      apply List.filter_congr
      intro ns _
      by_cases h : ns.1 = n
      · have : n = CACHE_NAME ∨ n = API_CACHE_NAME := by
          by_contra hc
          exact hn ⟨fun a => hc (Or.inl a), fun a => hc (Or.inr a)⟩
        rcases this with e | e <;> simp [h, e]
      · simp [h]

theorem activate_eq_filter (caches : CacheStorage) :
    activate caches
      = caches.filter (fun ns => decide (ns.1 = CACHE_NAME) || decide (ns.1 = API_CACHE_NAME)) := by
  unfold activate
  rw [foldl_delete_eq_filter]
  apply List.filter_congr
  intro ns hns
  have : ns.1 ∈ CacheStorage.keys caches := List.mem_map.mpr ⟨ns, hns, rfl⟩
  simp [this]

theorem lookup_filter (p : String → Bool) (name : String) :
    ∀ cs : CacheStorage,
      CacheStorage.lookup name (cs.filter (fun ns => p ns.1))
        = if p name then CacheStorage.lookup name cs else none := by
  intro cs
  induction cs with
  | nil => simp [CacheStorage.lookup]
  | cons ns rest ih =>
    by_cases hn : ns.1 = name
    · by_cases hp : p name = true
      · simp [CacheStorage.lookup, List.filter_cons, hn, hp]
      · have hp' : p name = false := by simpa using hp
        have := ih
        simp only [CacheStorage.lookup, hp', Bool.false_eq_true, if_false] at this
        simp only [CacheStorage.lookup, List.filter_cons, hn, hp', Bool.false_eq_true, if_false]
        exact this
    · have := ih
      simp only [CacheStorage.lookup] at this
      by_cases hq : p ns.1 = true
      · simp only [CacheStorage.lookup, List.filter_cons, hq, if_true, List.find?_cons,
          decide_eq_false hn]
        exact this
      · simp only [CacheStorage.lookup, List.filter_cons, hq, if_false, List.find?_cons,
          decide_eq_false hn]
        exact this

/-! ## Network-first handlers -/

/-- C1 (amended). After a network attempt that returned an ok response `live`,
a following failed attempt for the same request is answered with `live`
itself, hence with its body, by `handleApiRequest` and by
`handleStaticRequest`, provided no namespace created before the one the handler
writes to holds an entry for the request. -/
theorem cached_body_served_after_network_failure (selfOrigin : String)
    (caches : CacheStorage) (request : Request) (first second : NetOutcome)
    (live : Response) (_hget : request.method = "GET") (hok : live.ok = true) :
    (apiFetch request first = .response live → apiFetch request second = .failed →
      precedingMiss API_CACHE_NAME request.url caches = true →
      (handleApiRequest second request
        (handleApiRequest first request caches).caches).result = .response live)
    ∧ (fetchPlain first = .response live → fetchPlain second = .failed →
      precedingMiss CACHE_NAME request.url caches = true →
      (handleStaticRequest selfOrigin second request
        (handleStaticRequest selfOrigin first request caches).caches).result
        = .response live) := by
  constructor
  · intro h1 h2 hmiss
    have hc : (handleApiRequest first request caches).caches
        = cacheResponse API_CACHE_NAME request live caches := by
      simp [handleApiRequest, h1, hok]
    rw [hc]
    simp [handleApiRequest, h2, matchRequest_cacheResponse _ _ _ _ hmiss]
  · intro h1 h2 hmiss
    have hc : (handleStaticRequest selfOrigin first request caches).caches
        = cacheResponse CACHE_NAME request live caches := by
      simp [handleStaticRequest, h1, hok]
    rw [hc]
    simp [handleStaticRequest, h2, matchRequest_cacheResponse _ _ _ _ hmiss]

/-- Witness of C1 (amended): an API request and a static request, each fetched
once with success and once with a rejection, starting from no cache at all. -/
theorem cached_body_served_after_network_failure_witness :
    (handleApiRequest .rejects profileRequest
        (handleApiRequest (.responds 120 (okResponse "fresh")) profileRequest []).caches).result
      = .response (okResponse "fresh")
    ∧ (handleStaticRequest "https://app.example" .rejects logoRequest
        (handleStaticRequest "https://app.example" (.responds 120 (okResponse "png"))
          logoRequest []).caches).result
      = .response (okResponse "png") :=
  ⟨(cached_body_served_after_network_failure "https://app.example" [] profileRequest
      (.responds 120 (okResponse "fresh")) .rejects (okResponse "fresh") rfl rfl).1 rfl rfl rfl,
   (cached_body_served_after_network_failure "https://app.example" [] logoRequest
      (.responds 120 (okResponse "png")) .rejects (okResponse "png") rfl rfl).2 rfl rfl rfl⟩

/-- C1 as stated fails. After installation and a CACHE_URLS message naming an
API URL, the static namespace, created first, holds an entry for that GET API
request; the network returns an ok response with body
"fresh", which is stored in the API namespace; the next attempt rejects, and
`handleApiRequest` answers with the body "stale" of the static namespace. -/
theorem stale_entry_shadows_stored_body :
    profileRequest.method = "GET"
    ∧ (install staleNet "https://app.example" []).2 = true
    ∧ shadowedCaches.keys = [CACHE_NAME, API_CACHE_NAME]
    ∧ (okResponse "fresh").ok = true
    ∧ (handleApiRequest (.responds 120 (okResponse "fresh")) profileRequest shadowedCaches).result
      = .response (okResponse "fresh")
    ∧ (handleApiRequest (.responds 120 (okResponse "fresh")) profileRequest
        shadowedCaches).caches.lookup API_CACHE_NAME
      = some [(profileRequest.url, okResponse "fresh")]
    ∧ (handleApiRequest .rejects profileRequest
        (handleApiRequest (.responds 120 (okResponse "fresh")) profileRequest
          shadowedCaches).caches).result
      = .response (okResponse "stale")
    ∧ (okResponse "stale").body ≠ (okResponse "fresh").body := by
  refine ⟨rfl, rfl, rfl, rfl, rfl, rfl, rfl, ?_⟩
  simp [okResponse]

/-- C2. A GET API request whose path is neither /api/health nor /api/status,
whose network attempt rejects or has not completed after 5000 ms, and which
no cache entry matches, is answered with status 503 and a JSON body with
error "Offline", cached false and a non-empty message. -/
theorem api_offline_response_when_no_network_and_no_cache (request : Request)
    (net : NetOutcome) (caches : CacheStorage)
    (_hget : request.method = "GET")
    (hhealth : request.url.pathname ≠ "/api/health")
    (hstatus : request.url.pathname ≠ "/api/status")
    (hnet : net = .rejects ∨ net = .never ∨ ∃ ms r, net = .responds ms r ∧ 5000 ≤ ms)
    (hmiss : caches.matchRequest request.url = none) :
    ∃ r v message, (handleApiRequest net request caches).result = .response r
      ∧ r.status = 503
      ∧ r.body = .json v
      ∧ v.field "error" = some (.str "Offline")
      ∧ v.field "cached" = some (.bool false)
      ∧ v.field "message" = some (.str message) ∧ message ≠ "" := by
  have hh : isHealthCheck request = false := by simp [isHealthCheck, hhealth, hstatus]
  have hfail : apiFetch request net = .failed := by
    rcases hnet with h | h | ⟨ms, r, h, hms⟩
    · simp [apiFetch, hh, h, fetchWithAbort]
    · simp [apiFetch, hh, h, fetchWithAbort]
    · simp [apiFetch, hh, h, fetchWithAbort, Nat.not_lt.mpr hms]
  refine ⟨apiOfflineResponse, _, _, ?_, rfl, rfl, rfl, rfl, rfl, by decide⟩
  simp [handleApiRequest, hfail, hmiss]

/-- Witness of C2: a request for /api/auth/me whose response would arrive
after 7 seconds, with no cache namespace at all. -/
theorem api_offline_response_when_no_network_and_no_cache_witness :
    ∃ r v message,
      (handleApiRequest (.responds 7000 (okResponse "late")) profileRequest []).result
        = .response r
      ∧ r.status = 503
      ∧ r.body = .json v
      ∧ v.field "error" = some (.str "Offline")
      ∧ v.field "cached" = some (.bool false)
      ∧ v.field "message" = some (.str message) ∧ message ≠ "" :=
  api_offline_response_when_no_network_and_no_cache profileRequest
    (.responds 7000 (okResponse "late")) [] rfl (by decide) (by decide)
    (Or.inr (Or.inr ⟨7000, okResponse "late", rfl, by decide⟩)) rfl

/-- C3. For a GET request to /api/health or /api/status and any cache state,
`handleApiRequest` starts with a network fetch that has no abort timer; a
response of the network is returned whatever its latency; when it is ok it
becomes the entry for the request in the API namespace; and the cache is
consulted exactly when the network attempt rejects. -/
theorem health_check_is_network_first (request : Request) (net : NetOutcome)
    (caches : CacheStorage) (_hget : request.method = "GET")
    (hpath : request.url.pathname = "/api/health" ∨ request.url.pathname = "/api/status") :
    (handleApiRequest net request caches).trace.head? = some (.fetch request none)
    ∧ (∀ ms live, net = .responds ms live →
        (handleApiRequest net request caches).result = .response live)
    ∧ (∀ ms live, net = .responds ms live → live.ok = true →
        ((handleApiRequest net request caches).caches.lookup API_CACHE_NAME).bind
          (Cache.matchRequest request.url) = some live)
    ∧ (∀ key, Effect.cachesMatch key ∈ (handleApiRequest net request caches).trace →
        net = .rejects)
    ∧ (net = .rejects →
        Effect.cachesMatch request.url ∈ (handleApiRequest net request caches).trace) := by
  have hh : isHealthCheck request = true := by
    rcases hpath with h | h <;> simp [isHealthCheck, h]
  have hab : apiAbortAfter request = none := by simp [apiAbortAfter, hh]
  have hat : apiFetch request net = fetchPlain net := by simp [apiFetch, hh]
  refine ⟨?_, ?_, ?_, ?_, ?_⟩
  · cases net with
    | responds ms r =>
      by_cases hok : r.ok = true <;> simp [handleApiRequest, hat, hab, fetchPlain, hok]
    | rejects =>
      cases hm : caches.matchRequest request.url <;>
        simp [handleApiRequest, hat, hab, fetchPlain, hm]
    | never => simp [handleApiRequest, hat, hab, fetchPlain]
  · intro ms live hnet
    subst hnet
    by_cases hok : live.ok = true <;> simp [handleApiRequest, hat, fetchPlain, hok]
  · intro ms live hnet hok
    subst hnet
    have hc : (handleApiRequest (.responds ms live) request caches).caches
        = cacheResponse API_CACHE_NAME request live caches := by
      simp [handleApiRequest, hat, fetchPlain, hok]
    rw [hc]
    exact lookup_cacheResponse API_CACHE_NAME request live caches
  · intro key hkey
    cases net with
    | responds ms r =>
      by_cases hok : r.ok = true <;>
        simp [handleApiRequest, hat, fetchPlain, hok] at hkey
    | rejects => rfl
    | never => simp [handleApiRequest, hat, fetchPlain] at hkey
  · intro hnet
    subst hnet
    cases hm : caches.matchRequest request.url <;>
      simp [handleApiRequest, hat, fetchPlain, hm]

/-- Witness of C3: a health check answered after 30 seconds while the cache
already holds an older entry for it. -/
theorem health_check_is_network_first_witness :
    (handleApiRequest (.responds 30000 (okResponse "up")) healthRequest
        [(API_CACHE_NAME, [(healthRequest.url, okResponse "old")])]).result
      = .response (okResponse "up")
    ∧ ((handleApiRequest (.responds 30000 (okResponse "up")) healthRequest
        [(API_CACHE_NAME, [(healthRequest.url, okResponse "old")])]).caches.lookup
          API_CACHE_NAME).bind (Cache.matchRequest healthRequest.url)
      = some (okResponse "up") :=
  ⟨(health_check_is_network_first healthRequest (.responds 30000 (okResponse "up"))
      [(API_CACHE_NAME, [(healthRequest.url, okResponse "old")])] rfl (Or.inl rfl)).2.1
      30000 (okResponse "up") rfl,
   (health_check_is_network_first healthRequest (.responds 30000 (okResponse "up"))
      [(API_CACHE_NAME, [(healthRequest.url, okResponse "old")])] rfl (Or.inl rfl)).2.2.1
      30000 (okResponse "up") rfl rfl⟩

/-- The navigation fallback when the offline page is cached. For a GET request
with mode navigate whose network fetch rejects and which no cache entry
matches, `handleStaticRequest` looks up /offline.html across the cache
namespaces and, when an entry `page` is found, answers with that entry. -/
theorem navigation_served_cached_offline_page (selfOrigin : String) (request : Request)
    (caches : CacheStorage) (page : Response)
    (_hget : request.method = "GET") (hnav : request.mode = "navigate")
    (hmiss : caches.matchRequest request.url = none)
    (hpage : caches.matchRequest
      { origin := selfOrigin, pathname := "/offline.html", search := "" } = some page) :
    (handleStaticRequest selfOrigin .rejects request caches).result = .response page
    ∧ Effect.cachesMatch { origin := selfOrigin, pathname := "/offline.html", search := "" }
        ∈ (handleStaticRequest selfOrigin .rejects request caches).trace := by
  simp [handleStaticRequest, fetchPlain, hmiss, hnav, OFFLINE_URL, hpage]

/-- An instance of the navigation fallback: the static namespace holds only
/offline.html. -/
theorem navigation_served_cached_offline_page_witness :
    (handleStaticRequest "https://app.example" .rejects dashboardNavigation
        [(CACHE_NAME,
          [({ origin := "https://app.example", pathname := "/offline.html", search := "" },
            okResponse "offline page")])]).result
      = .response (okResponse "offline page") :=
  (navigation_served_cached_offline_page "https://app.example" dashboardNavigation
    [(CACHE_NAME,
      [({ origin := "https://app.example", pathname := "/offline.html", search := "" },
        okResponse "offline page")])]
    (okResponse "offline page") rfl rfl rfl rfl).1

/-- The navigation fallback never answers with the generic response of the
other static requests: for a request with mode navigate whose network fetch
rejects and which no cache entry matches, the handler settles with the cached
entry for /offline.html, or with `undefined` when there is none, whatever the
cache namespaces hold. -/
theorem navigation_fallback_is_cached_page_or_undefined (selfOrigin : String)
    (request : Request) (caches : CacheStorage) (hnav : request.mode = "navigate")
    (hmiss : caches.matchRequest request.url = none) :
    (handleStaticRequest selfOrigin .rejects request caches).result
      = ((caches.matchRequest
          { origin := selfOrigin, pathname := "/offline.html", search := "" }).map
            Settled.response).getD .undefined := by
  cases hpage : caches.matchRequest
      { origin := selfOrigin, pathname := "/offline.html", search := "" } <;>
    simp [handleStaticRequest, fetchPlain, hmiss, hnav, OFFLINE_URL, hpage]

/-- C4, the code at the failing input. After installation and a CLEAR_CACHE
message there is no cache namespace left, and a GET navigation whose fetch
rejects, matched by no cache entry, is settled with `undefined`: no response
at all, so neither the offline placeholder document that the claim and the
comment at sw.js line 208 promise, nor the generic 503 response. -/
theorem navigation_without_cached_offline_page :
    dashboardNavigation.method = "GET"
    ∧ dashboardNavigation.mode = "navigate"
    ∧ startsWith dashboardNavigation.url.pathname "/api/" = false
    ∧ (install staleNet "https://app.example" []).2 = true
    ∧ clearedCaches.keys = []
    ∧ CacheStorage.matchRequest dashboardNavigation.url clearedCaches = none
    ∧ (handleStaticRequest "https://app.example" .rejects dashboardNavigation
        clearedCaches).result = .undefined
    ∧ ∀ r, (handleStaticRequest "https://app.example" .rejects dashboardNavigation
        clearedCaches).result ≠ .response r := by
  refine ⟨rfl, rfl, rfl, rfl, rfl, rfl, rfl, ?_⟩
  intro r h
  have hu : (handleStaticRequest "https://app.example" .rejects dashboardNavigation
      clearedCaches).result = .undefined := rfl
  rw [hu] at h
  cases h

/-! ## Activation -/

/-- C5. After the cache clean-up of the activate handler, looking up a name
among the namespaces gives nothing when the name differs from both current
names, and gives exactly what it gave before (existence and contents) for
CACHE_NAME and API_CACHE_NAME. -/
theorem activate_keeps_only_current_caches (caches : CacheStorage) (name : String) :
    (activate caches).lookup name
      = if name = CACHE_NAME ∨ name = API_CACHE_NAME then caches.lookup name else none := by
  rw [activate_eq_filter]
  have := lookup_filter
    (fun n => decide (n = CACHE_NAME) || decide (n = API_CACHE_NAME)) name caches
  simp only [Bool.or_eq_true, decide_eq_true_eq] at this
  exact this

/-! ## Background sync: lemmas on the loop -/

theorem mem_syncLoop {σ α : Type} (body : Nat → α → σ → σ × List SyncEffect)
    (e : SyncEffect) (P : Nat → α → Prop)
    (hbody : ∀ i a s, e ∈ (body i a s).2 ↔ P i a) :
    ∀ (items : List α) (k : Nat) (s : σ),
      e ∈ (syncLoop body k items s).2 ↔ ∃ j a, items[j]? = some a ∧ P (k + j) a := by
  intro items
  induction items with
  | nil => intro k s; simp [syncLoop]
  | cons item rest ih =>
    intro k s
    simp only [syncLoop, List.mem_append, hbody, ih]
    constructor
    · rintro (h | ⟨j, a, hj, hP⟩)
      · exact ⟨0, item, by simp, by simpa using h⟩
      · refine ⟨j + 1, a, by simpa using hj, ?_⟩
        have : k + (j + 1) = k + 1 + j := by omega
        rw [this]; exact hP
    · rintro ⟨j, a, hj, hP⟩
      cases j with
      | zero =>
        left
        have : item = a := by simpa using hj
        subst this
        simpa using hP
      | succ j =>
        right
        refine ⟨j, a, by simpa using hj, ?_⟩
        have : k + 1 + j = k + (j + 1) := by omega
        rw [this]; exact hP

theorem fetchCalls_append (xs ys : List SyncEffect) :
    fetchCalls (xs ++ ys) = fetchCalls xs ++ fetchCalls ys := by
  induction xs with
  | nil => rfl
  | cons x rest ih => cases x <;> simp [fetchCalls, ih]

theorem fetchCalls_syncLoop {σ α : Type} (body : Nat → α → σ → σ × List SyncEffect)
    (call : α → SyncCall) (hbody : ∀ i a s, fetchCalls (body i a s).2 = [call a]) :
    ∀ (items : List α) (k : Nat) (s : σ),
      fetchCalls (syncLoop body k items s).2 = items.map call := by
  intro items
  induction items with
  | nil => intro k s; rfl
  | cons item rest ih =>
    intro k s
    simp [syncLoop, fetchCalls_append, hbody, ih]

theorem mem_runTriggers {σ : Type} (sync : SyncWorld → σ → σ × List SyncEffect)
    (e : SyncEffect) :
    ∀ (worlds : List SyncWorld) (s : σ),
      e ∈ (runTriggers sync worlds s).2 → ∃ w ∈ worlds, ∃ s1, e ∈ (sync w s1).2 := by
  intro worlds
  induction worlds with
  | nil => intro s h; simp [runTriggers] at h
  | cons w later ih =>
    intro s h
    simp only [runTriggers, List.mem_append] at h
    rcases h with h | h
    · exact ⟨w, by simp, s, h⟩
    · obtain ⟨w1, hw1, s1, h1⟩ := ih _ h
      exact ⟨w1, by simp [hw1], s1, h1⟩

theorem removal_in_applicationStep {σ : Type} (removePending : Nat → σ → Option σ)
    (world : SyncWorld) (id i : Nat) (a : Application) (s : σ) :
    SyncEffect.removePendingApplication id ∈ (applicationStep removePending world i a s).2
      ↔ a.id = id ∧ (world.net i (replayApplication a)).isOk = true := by
  unfold applicationStep
  cases hnet : world.net i (replayApplication a) with
  | rejects => simp [ReplayOutcome.isOk]
  | response r =>
    by_cases hok : r.ok = true
    · cases removePending a.id s <;> simp [ReplayOutcome.isOk, hok, eq_comm]
    · simp [ReplayOutcome.isOk, hok]

theorem removal_in_profileUpdateStep {σ : Type} (removePending : Nat → σ → Option σ)
    (world : SyncWorld) (id i : Nat) (a : ProfileUpdate) (s : σ) :
    SyncEffect.removePendingProfileUpdate id ∈ (profileUpdateStep removePending world i a s).2
      ↔ a.id = id ∧ (world.net i (replayProfileUpdate a)).isOk = true := by
  unfold profileUpdateStep
  cases hnet : world.net i (replayProfileUpdate a) with
  | rejects => simp [ReplayOutcome.isOk]
  | response r =>
    by_cases hok : r.ok = true
    · cases removePending a.id s <;> simp [ReplayOutcome.isOk, hok, eq_comm]
    · simp [ReplayOutcome.isOk, hok]

theorem removal_in_jobSearchStep {σ : Type} (removePending : Nat → σ → Option σ)
    (world : SyncWorld) (id i : Nat) (a : JobSearch) (s : σ) :
    SyncEffect.removePendingJobSearch id ∈ (jobSearchStep removePending world i a s).2
      ↔ a.id = id ∧ (world.net i (replayJobSearch a)).isOk = true := by
  unfold jobSearchStep
  cases hnet : world.net i (replayJobSearch a) with
  | rejects => simp [ReplayOutcome.isOk]
  | response r =>
    by_cases hok : r.ok = true
    · cases removePending a.id s with
      | none => simp [ReplayOutcome.isOk, hok, eq_comm]
      | some s1 =>
        simp only [hok, if_true]
        split <;> simp [ReplayOutcome.isOk, hok, eq_comm]
    · simp [ReplayOutcome.isOk, hok]

theorem fetchCalls_applicationStep {σ : Type} (removePending : Nat → σ → Option σ)
    (world : SyncWorld) (i : Nat) (a : Application) (s : σ) :
    fetchCalls (applicationStep removePending world i a s).2 = [replayApplication a] := by
  unfold applicationStep
  cases world.net i (replayApplication a) with
  | rejects => rfl
  | response r =>
    by_cases hok : r.ok = true
    · cases removePending a.id s <;> simp [hok, fetchCalls]
    · simp [hok, fetchCalls]

theorem fetchCalls_profileUpdateStep {σ : Type} (removePending : Nat → σ → Option σ)
    (world : SyncWorld) (i : Nat) (a : ProfileUpdate) (s : σ) :
    fetchCalls (profileUpdateStep removePending world i a s).2 = [replayProfileUpdate a] := by
  unfold profileUpdateStep
  cases world.net i (replayProfileUpdate a) with
  | rejects => rfl
  | response r =>
    by_cases hok : r.ok = true
    · cases removePending a.id s <;> simp [hok, fetchCalls]
    · simp [hok, fetchCalls]

theorem fetchCalls_jobSearchStep {σ : Type} (removePending : Nat → σ → Option σ)
    (world : SyncWorld) (i : Nat) (a : JobSearch) (s : σ) :
    fetchCalls (jobSearchStep removePending world i a s).2 = [replayJobSearch a] := by
  unfold jobSearchStep
  cases world.net i (replayJobSearch a) with
  | rejects => rfl
  | response r =>
    by_cases hok : r.ok = true
    · cases removePending a.id s with
      | none => simp [hok, fetchCalls]
      | some s1 =>
        simp only [hok, if_true]
        split <;> simp [fetchCalls]
    · simp [hok, fetchCalls]

theorem removal_in_syncJobApplicationsWith {σ : Type}
    (getPending : σ → Option (List Application)) (removePending : Nat → σ → Option σ)
    (world : SyncWorld) (store : σ) (id : Nat) :
    SyncEffect.removePendingApplication id
        ∈ (syncJobApplicationsWith getPending removePending world store).2
      ↔ ∃ pending, getPending store = some pending ∧ ∃ j a, pending[j]? = some a
          ∧ a.id = id ∧ (world.net j (replayApplication a)).isOk = true := by
  unfold syncJobApplicationsWith
  cases hget : getPending store with
  | none => simp
  | some pending =>
    have := mem_syncLoop (applicationStep removePending world)
      (SyncEffect.removePendingApplication id)
      (fun i a => a.id = id ∧ (world.net i (replayApplication a)).isOk = true)
      (removal_in_applicationStep removePending world id) pending 0 store
    simpa using this

theorem removal_in_syncProfileUpdatesWith {σ : Type}
    (getPending : σ → Option (List ProfileUpdate)) (removePending : Nat → σ → Option σ)
    (world : SyncWorld) (store : σ) (id : Nat) :
    SyncEffect.removePendingProfileUpdate id
        ∈ (syncProfileUpdatesWith getPending removePending world store).2
      ↔ ∃ pending, getPending store = some pending ∧ ∃ j a, pending[j]? = some a
          ∧ a.id = id ∧ (world.net j (replayProfileUpdate a)).isOk = true := by
  unfold syncProfileUpdatesWith
  cases hget : getPending store with
  | none => simp
  | some pending =>
    have := mem_syncLoop (profileUpdateStep removePending world)
      (SyncEffect.removePendingProfileUpdate id)
      (fun i a => a.id = id ∧ (world.net i (replayProfileUpdate a)).isOk = true)
      (removal_in_profileUpdateStep removePending world id) pending 0 store
    simpa using this

theorem removal_in_syncJobSearchesWith {σ : Type}
    (getPending : σ → Option (List JobSearch)) (removePending : Nat → σ → Option σ)
    (world : SyncWorld) (store : σ) (id : Nat) :
    SyncEffect.removePendingJobSearch id
        ∈ (syncJobSearchesWith getPending removePending world store).2
      ↔ ∃ pending, getPending store = some pending ∧ ∃ j a, pending[j]? = some a
          ∧ a.id = id ∧ (world.net j (replayJobSearch a)).isOk = true := by
  unfold syncJobSearchesWith
  cases hget : getPending store with
  | none => simp
  | some pending =>
    have := mem_syncLoop (jobSearchStep removePending world)
      (SyncEffect.removePendingJobSearch id)
      (fun i a => a.id = id ∧ (world.net i (replayJobSearch a)).isOk = true)
      (removal_in_jobSearchStep removePending world id) pending 0 store
    simpa using this

/-! ## Background sync: the claims -/

/-- C6. In each of the three sync routines, whatever the storage helpers do,
the removal operation is invoked for an id during a trigger exactly when that
trigger replayed a retrieved action with this id and the replay returned an ok
response; and over any sequence of triggers in which every replay of the
actions with this id rejects or returns a non-ok status, the removal operation
is never invoked for it. -/
theorem removal_iff_replay_ok {σ : Type} (world : SyncWorld) (store : σ) (id : Nat) :
    (∀ getPending removePending pending, getPending store = some pending →
      (SyncEffect.removePendingApplication id
          ∈ (syncJobApplicationsWith getPending removePending world store).2
        ↔ ∃ j a, pending[j]? = some a ∧ a.id = id
            ∧ (world.net j (replayApplication a)).isOk = true))
    ∧ (∀ getPending removePending pending, getPending store = some pending →
      (SyncEffect.removePendingProfileUpdate id
          ∈ (syncProfileUpdatesWith getPending removePending world store).2
        ↔ ∃ j a, pending[j]? = some a ∧ a.id = id
            ∧ (world.net j (replayProfileUpdate a)).isOk = true))
    ∧ (∀ getPending removePending pending, getPending store = some pending →
      (SyncEffect.removePendingJobSearch id
          ∈ (syncJobSearchesWith getPending removePending world store).2
        ↔ ∃ j a, pending[j]? = some a ∧ a.id = id
            ∧ (world.net j (replayJobSearch a)).isOk = true))
    ∧ (∀ getPending removePending (worlds : List SyncWorld),
      (∀ w ∈ worlds, ∀ j a, a.id = id → (w.net j (replayApplication a)).isOk = false) →
      SyncEffect.removePendingApplication id
        ∉ (runTriggers (syncJobApplicationsWith getPending removePending) worlds store).2)
    ∧ (∀ getPending removePending (worlds : List SyncWorld),
      (∀ w ∈ worlds, ∀ j a, a.id = id → (w.net j (replayProfileUpdate a)).isOk = false) →
      SyncEffect.removePendingProfileUpdate id
        ∉ (runTriggers (syncProfileUpdatesWith getPending removePending) worlds store).2)
    ∧ (∀ getPending removePending (worlds : List SyncWorld),
      (∀ w ∈ worlds, ∀ j a, a.id = id → (w.net j (replayJobSearch a)).isOk = false) →
      SyncEffect.removePendingJobSearch id
        ∉ (runTriggers (syncJobSearchesWith getPending removePending) worlds store).2) := by
  refine ⟨?_, ?_, ?_, ?_, ?_, ?_⟩
  · intro getPending removePending pending hget
    rw [removal_in_syncJobApplicationsWith]
    simp [hget]
  · intro getPending removePending pending hget
    rw [removal_in_syncProfileUpdatesWith]
    simp [hget]
  · intro getPending removePending pending hget
    rw [removal_in_syncJobSearchesWith]
    simp [hget]
  · intro getPending removePending worlds hfail hmem
    obtain ⟨w, hw, s1, h1⟩ := mem_runTriggers _ _ worlds store hmem
    obtain ⟨_, _, j, a, _, hid, hok⟩ := (removal_in_syncJobApplicationsWith _ _ _ _ _).mp h1
    rw [hfail w hw j a hid] at hok
    cases hok
  · intro getPending removePending worlds hfail hmem
    obtain ⟨w, hw, s1, h1⟩ := mem_runTriggers _ _ worlds store hmem
    obtain ⟨_, _, j, a, _, hid, hok⟩ := (removal_in_syncProfileUpdatesWith _ _ _ _ _).mp h1
    rw [hfail w hw j a hid] at hok
    cases hok
  · intro getPending removePending worlds hfail hmem
    obtain ⟨w, hw, s1, h1⟩ := mem_runTriggers _ _ worlds store hmem
    obtain ⟨_, _, j, a, _, hid, hok⟩ := (removal_in_syncJobSearchesWith _ _ _ _ _).mp h1
    rw [hfail w hw j a hid] at hok
    cases hok

/-- Witness of C6: with A, B, C queued and only B failing, removal is invoked
for A; and two triggers without network never invoke removal for B. -/
theorem removal_iff_replay_ok_witness :
    SyncEffect.removePendingApplication 1
        ∈ (syncJobApplicationsWith queuedApplications dequeueApplication abcWorld abcStore).2
    ∧ SyncEffect.removePendingApplication 2
        ∉ (runTriggers (syncJobApplicationsWith queuedApplications dequeueApplication)
            [offlineWorld, offlineWorld] abcStore).2 :=
  ⟨((removal_iff_replay_ok abcWorld abcStore 1).1 queuedApplications dequeueApplication
      [applicationA, applicationB, applicationC] rfl).mpr ⟨0, applicationA, rfl, rfl, rfl⟩,
   (removal_iff_replay_ok abcWorld abcStore 2).2.2.2.1 queuedApplications dequeueApplication
      [offlineWorld, offlineWorld]
      (by
        intro w hw j a _
        have hw1 : w = offlineWorld := by simpa using hw
        subst hw1
        rfl)⟩

/-- The placeholders of sw.js at a storage that holds A, B, C: the helper
`getPendingApplications` returns the empty array, so `syncJobApplications`
issues no call at all and leaves A, B, C stored; the same loop over a storage
that returns and removes what is stored leaves exactly B. -/
theorem stub_helpers_leave_queue_untouched :
    (syncJobApplications abcWorld abcStore).2 = []
    ∧ (syncJobApplications abcWorld abcStore).1.applications.map (fun a => a.id) = [1, 2, 3]
    ∧ (syncJobApplicationsWith queuedApplications dequeueApplication abcWorld
        abcStore).1.applications.map (fun a => a.id) = [2] :=
  ⟨rfl, rfl, rfl⟩

/-- Removing an id that occurs once: the queue without the application that
carries it. -/
theorem filter_out_unique_id (kept rest : List Application) (a : Application)
    (hunique : ((kept ++ a :: rest).map (fun b => b.id)).Nodup) :
    (kept ++ a :: rest).filter (fun b => !decide (b.id = a.id)) = kept ++ rest := by
  rw [List.map_append, List.map_cons] at hunique
  have hparts := List.nodup_append.mp hunique
  have hrest : a.id ∉ rest.map (fun b => b.id) := (List.nodup_cons.mp hparts.2.1).1
  have hkept : a.id ∉ kept.map (fun b => b.id) := by
    intro hmem
    exact hparts.2.2 hmem (List.mem_cons_self _ _)
  have hk : kept.filter (fun b => !decide (b.id = a.id)) = kept := by
    rw [List.filter_eq_self]
    intro b hb
    have : b.id ≠ a.id := fun h => hkept (h ▸ List.mem_map_of_mem (fun b => b.id) hb)
    simp [this]
  have hr : rest.filter (fun b => !decide (b.id = a.id)) = rest := by
    rw [List.filter_eq_self]
    intro b hb
    have : b.id ≠ a.id := fun h => hrest (h ▸ List.mem_map_of_mem (fun b => b.id) hb)
    simp [this]
  rw [List.filter_append, List.filter_cons, hk, hr]
  simp

/-- The loop of `syncJobApplications` over a storage whose removal helper
removes the application of the given id: what is queued after the loop is
what was already passed over and kept, followed by the remaining applications
whose replay is not ok. -/
theorem queue_after_syncLoop {σ : Type} (queue : σ → List Application)
    (removePending : Nat → σ → Option σ)
    (hremove : ∀ id s, ∃ s1, removePending id s = some s1
      ∧ queue s1 = (queue s).filter (fun a => !decide (a.id = id)))
    (world : SyncWorld) :
    ∀ (items : List Application) (k : Nat) (kept : List Application) (store : σ),
      queue store = kept ++ items →
      ((kept ++ items).map (fun a => a.id)).Nodup →
      queue (syncLoop (applicationStep removePending world) k items store).1
        = kept ++ ((items.enumFrom k).filter
            (fun p => !(world.net p.1 (replayApplication p.2)).isOk)).map Prod.snd := by
  intro items
  induction items with
  | nil =>
    intro k kept store hq _
    simpa [syncLoop] using hq
  | cons a rest ih =>
    intro k kept store hq hunique
    have hskip : ∀ s, queue s = kept ++ a :: rest →
        queue (syncLoop (applicationStep removePending world) (k + 1) rest s).1
          = kept ++ a :: ((rest.enumFrom (k + 1)).filter
              (fun p => !(world.net p.1 (replayApplication p.2)).isOk)).map Prod.snd := by
      intro s hs
      have := ih (k + 1) (kept ++ [a]) s (by simpa using hs) (by simpa using hunique)
      simpa using this
    simp only [syncLoop, List.enumFrom_cons, List.filter_cons]
    cases hnet : world.net k (replayApplication a) with
    | rejects =>
      simp only [applicationStep, hnet, ReplayOutcome.isOk]
      simpa using hskip store hq
    | response r =>
      by_cases hok : r.ok = true
      · obtain ⟨s1, hs1, hq1⟩ := hremove a.id store
        have hq2 : queue s1 = kept ++ rest := by
          rw [hq1, hq]
          exact filter_out_unique_id kept rest a hunique
        have hunique2 : ((kept ++ rest).map (fun b => b.id)).Nodup := by
          refine hunique.sublist ?_
          exact (List.Sublist.append_left (List.sublist_cons_self a rest) kept).map _
        simp only [applicationStep, hnet, ReplayOutcome.isOk, hok, hs1, if_true]
        simpa using ih (k + 1) kept s1 hq2 hunique2
      · simp only [applicationStep, hnet, ReplayOutcome.isOk, hok]
        simpa using hskip store hq

/-- C7. For every queue of pending job applications with unique ids and every
pattern of replay outcomes: over a persistent storage whose helpers return
what is queued and remove the application of a given id (as the data model
describes them, the placeholders of sw.js with their always empty queue
included), after one trigger of `syncJobApplications` the queue holds exactly
the applications whose replay did not return an ok response, in their
original order. -/
theorem queue_after_sync_keeps_failed_applications {σ : Type}
    (queue : σ → List Application) (getPending : σ → Option (List Application))
    (removePending : Nat → σ → Option σ) (world : SyncWorld) (store : σ)
    (hget : ∀ s, getPending s = some (queue s))
    (hremove : ∀ id s, ∃ s1, removePending id s = some s1
      ∧ queue s1 = (queue s).filter (fun a => !decide (a.id = id)))
    (hunique : ((queue store).map (fun a => a.id)).Nodup) :
    queue (syncJobApplicationsWith getPending removePending world store).1
      = ((queue store).enum.filter
          (fun p => !(world.net p.1 (replayApplication p.2)).isOk)).map Prod.snd := by
  have := queue_after_syncLoop queue removePending hremove world (queue store) 0 [] store
    rfl hunique
  simpa [syncJobApplicationsWith, hget, List.enum] using this

/-- Witness of C7: with A, B, C queued in that order and only the replay of B
failing, exactly B remains queued. -/
theorem queue_after_sync_keeps_failed_applications_witness :
    (syncJobApplicationsWith queuedApplications dequeueApplication abcWorld
        abcStore).1.applications = [applicationB] :=
  queue_after_sync_keeps_failed_applications (fun s : Store => s.applications)
    queuedApplications dequeueApplication abcWorld abcStore (fun _ => rfl)
    (fun _ _ => ⟨_, rfl, rfl⟩) (by decide)

/-- The placeholders of sw.js are a storage of this kind, one whose queue is
always empty: nothing is retrieved, and a removal leaves the empty queue
empty. -/
theorem sw_placeholders_are_an_empty_queue :
    (∀ s, getPendingApplications s = some ((fun _ => []) s))
    ∧ (∀ id s, ∃ s1, removePendingApplication id s = some s1
      ∧ (fun _ => ([] : List Application)) s1
        = ((fun _ => ([] : List Application)) s).filter (fun a => !decide (a.id = id))) :=
  ⟨fun _ => rfl, fun _ s => ⟨s, rfl, rfl⟩⟩

/-- C8. In each of the three sync routines, for every list returned by the
storage helper, every pattern of replay outcomes, every behaviour of the
removal helper and of the notification, the replay requests issued are exactly
one per retrieved action, in the order of the list. -/
theorem one_replay_per_pending_action {σ : Type} (world : SyncWorld) (store : σ)
    (removePending : Nat → σ → Option σ) :
    (∀ getPending pending, getPending store = some pending →
      fetchCalls (syncJobApplicationsWith getPending removePending world store).2
        = pending.map replayApplication)
    ∧ (∀ getPending pending, getPending store = some pending →
      fetchCalls (syncProfileUpdatesWith getPending removePending world store).2
        = pending.map replayProfileUpdate)
    ∧ (∀ getPending pending, getPending store = some pending →
      fetchCalls (syncJobSearchesWith getPending removePending world store).2
        = pending.map replayJobSearch) := by
  refine ⟨?_, ?_, ?_⟩
  · intro getPending pending hget
    simp only [syncJobApplicationsWith, hget]
    exact fetchCalls_syncLoop _ _ (fetchCalls_applicationStep removePending world) pending 0 store
  · intro getPending pending hget
    simp only [syncProfileUpdatesWith, hget]
    exact fetchCalls_syncLoop _ _ (fetchCalls_profileUpdateStep removePending world) pending 0 store
  · intro getPending pending hget
    simp only [syncJobSearchesWith, hget]
    exact fetchCalls_syncLoop _ _ (fetchCalls_jobSearchStep removePending world) pending 0 store

/-- Witness of C8: A, B, C retrieved, the replay of B rejecting, and a removal
helper that always rejects: three replays, in order. -/
theorem one_replay_per_pending_action_witness :
    fetchCalls (syncJobApplicationsWith queuedApplications (fun _ _ => none) abcWorld abcStore).2
      = [replayApplication applicationA, replayApplication applicationB,
         replayApplication applicationC] :=
  (one_replay_per_pending_action abcWorld abcStore (fun _ _ => none)).1 queuedApplications
    [applicationA, applicationB, applicationC] rfl

/-! ## Mutating requests -/

/-- C9 (amended). A request whose method is not GET gets no response from the
fetch listener and goes to the network, leaving the cache namespaces and the
pending-action storage as they were; when the network rejects it,
`APIClient.request` throws the failure to its caller; and the sync routines of
sw.js, whose storage helpers return the empty list, replay nothing. -/
theorem mutating_request_passes_through (selfOrigin : String) (net : NetOutcome)
    (request : Request) (inst : Installation) (world : SyncWorld)
    (hmut : request.method ≠ "GET") :
    pageFetch selfOrigin net request inst = (fetchPlain net, inst)
    ∧ APIClient.request (pageFetch selfOrigin .rejects request inst).1 = .throws .network
    ∧ (pageFetch selfOrigin .rejects request inst).2 = inst
    ∧ (syncJobApplications world inst.store).2 = []
    ∧ (syncProfileUpdates world inst.store).2 = []
    ∧ (syncJobSearches world inst.store).2 = [] := by
  have h : ∀ n, pageFetch selfOrigin n request inst = (fetchPlain n, inst) := by
    intro n
    simp [pageFetch, onFetch, hmut]
  refine ⟨h net, ?_, ?_, rfl, rfl, rfl⟩
  · rw [h]; rfl
  · rw [h]

/-- Witness of C9 (amended): the page applies to job 42 with the network
down. -/
theorem mutating_request_passes_through_witness :
    pageFetch "https://app.example" .rejects applyRequest emptyInstallation
      = (fetchPlain .rejects, emptyInstallation)
    ∧ APIClient.request
        (pageFetch "https://app.example" .rejects applyRequest emptyInstallation).1
      = .throws .network :=
  ⟨(mutating_request_passes_through "https://app.example" .rejects applyRequest
      emptyInstallation offlineWorld (by decide)).1,
   (mutating_request_passes_through "https://app.example" .rejects applyRequest
      emptyInstallation offlineWorld (by decide)).2.1⟩

/-- C9 as stated fails. The page sends POST /api/jobs/42/apply while the
network rejects: the storage holds no pending application afterwards, and a
later apply-job trigger with the network back issues no replay. -/
theorem failed_application_is_not_queued :
    applyRequest.method = "POST"
    ∧ applyRequest.url.pathname = "/api/jobs/42/apply"
    ∧ APIClient.request
        (pageFetch "https://app.example" .rejects applyRequest emptyInstallation).1
      = .throws .network
    ∧ (pageFetch "https://app.example" .rejects applyRequest
        emptyInstallation).2.store.applications.length = 0
    ∧ (syncJobApplications abcWorld
        (pageFetch "https://app.example" .rejects applyRequest emptyInstallation).2.store).2
      = [] := by
  refine ⟨by decide, by decide, rfl, rfl, rfl⟩

/-- C10, the code on every job application. The replay of
`syncJobApplications` is a POST, as in `APIClient.applyToJob`, but its path is
/api/jobs/apply for every application, which differs from the path
/api/jobs/<jobId>/apply that the client uses; the replays of profile updates
and job searches use the client's method and path. -/
theorem application_replay_path_differs_from_client (application : Application)
    (update : ProfileUpdate) (search : JobSearch) (data : Json) :
    some (replayApplication application).method
      = (APIClient.applyToJob application.jobId data).options.method
    ∧ (replayApplication application).url = "/api/jobs/apply"
    ∧ (replayApplication application).url
      ≠ APIClient.basePath ++ (APIClient.applyToJob application.jobId data).endpoint
    ∧ some (replayProfileUpdate update).method = (APIClient.updateProfile data).options.method
    ∧ (replayProfileUpdate update).url
      = APIClient.basePath ++ (APIClient.updateProfile data).endpoint
    ∧ some (replayJobSearch search).method = (APIClient.searchJobs data).options.method
    ∧ (replayJobSearch search).url
      = APIClient.basePath ++ (APIClient.searchJobs data).endpoint := by
  refine ⟨rfl, rfl, ?_, rfl, ?_, rfl, ?_⟩
  case refine_2 => show "/api/profile" = "/api" ++ "/profile"; decide
  case refine_3 => show "/api/jobs/search" = "/api" ++ "/jobs/search"; decide
  intro h
  have hlen := congrArg String.length h
  simp [replayApplication, APIClient.basePath, APIClient.applyToJob, String.length_append] at hlen
  have h1 : "/api/jobs/apply".length = 15 := by decide
  have h2 : "/api".length = 4 := by decide
  have h3 : "/jobs/".length = 6 := by decide
  have h4 : "/apply".length = 6 := by decide
  omega

/-! ## Notifications of the sync routines -/

theorem mem_syncLoop_intro {σ α : Type} (body : Nat → α → σ → σ × List SyncEffect)
    (e : SyncEffect) :
    ∀ (items : List α) (k : Nat) (s : σ) (j : Nat) (a : α), items[j]? = some a →
      (∀ s1, e ∈ (body (k + j) a s1).2) → e ∈ (syncLoop body k items s).2 := by
  intro items
  induction items with
  | nil => intro k s j a hj; simp at hj
  | cons item rest ih =>
    intro k s j a hj hbody
    simp only [syncLoop, List.mem_append]
    cases j with
    | zero =>
      left
      have : item = a := by simpa using hj
      subst this
      simpa using hbody s
    | succ j =>
      right
      refine ih (k + 1) _ j a (by simpa using hj) ?_
      intro s1
      have : k + 1 + j = k + (j + 1) := by omega
      rw [this]; exact hbody s1

theorem mem_syncLoop_elim {σ α : Type} (body : Nat → α → σ → σ × List SyncEffect)
    (e : SyncEffect) :
    ∀ (items : List α) (k : Nat) (s : σ), e ∈ (syncLoop body k items s).2 →
      ∃ j a s1, items[j]? = some a ∧ e ∈ (body (k + j) a s1).2 := by
  intro items
  induction items with
  | nil => intro k s h; simp [syncLoop] at h
  | cons item rest ih =>
    intro k s h
    simp only [syncLoop, List.mem_append] at h
    rcases h with h | h
    · exact ⟨0, item, s, by simp, by simpa using h⟩
    · obtain ⟨j, a, s1, hj, hmem⟩ := ih _ _ h
      refine ⟨j + 1, a, s1, by simpa using hj, ?_⟩
      have : k + (j + 1) = k + 1 + j := by omega
      rw [this]; exact hmem

theorem notification_in_applicationStep {σ : Type} (removePending : Nat → σ → Option σ)
    (hrm : ∀ id s, (removePending id s).isSome = true)
    (world : SyncWorld) (i : Nat) (a : Application) (s : σ)
    (hok : (world.net i (replayApplication a)).isOk = true) :
    SyncEffect.showNotification "Job application sent successfully!"
        "job-application-success" (!world.notifyRejects i)
      ∈ (applicationStep removePending world i a s).2 := by
  unfold applicationStep
  cases hnet : world.net i (replayApplication a) with
  | rejects => simp [hnet, ReplayOutcome.isOk] at hok
  | response r =>
    have hr : r.ok = true := by simpa [hnet, ReplayOutcome.isOk] using hok
    cases hs : removePending a.id s with
    | none => have := hrm a.id s; simp [hs] at this
    | some s1 => simp [hr]

theorem notification_in_jobSearchStep {σ : Type} (removePending : Nat → σ → Option σ)
    (hrm : ∀ id s, (removePending id s).isSome = true)
    (world : SyncWorld) (i : Nat) (a : JobSearch) (s : σ) (r : Response) (count : String)
    (hnet : world.net i (replayJobSearch a) = .response r) (hok : r.ok = true)
    (hcount : r.json.bind (announcedJobs world.lengthText) = some count) :
    SyncEffect.showNotification ("Found " ++ count ++ " new job matches!")
        "job-search-results" (!world.notifyRejects i)
      ∈ (jobSearchStep removePending world i a s).2 := by
  unfold jobSearchStep
  rw [hnet]
  cases hs : removePending a.id s with
  | none => have := hrm a.id s; simp [hs] at this
  | some s1 => simp [hok, hcount]

theorem notification_of_jobSearchStep {σ : Type} (removePending : Nat → σ → Option σ)
    (world : SyncWorld) (i : Nat) (a : JobSearch) (s : σ) (title tag : String)
    (displayed : Bool)
    (hmem : SyncEffect.showNotification title tag displayed
      ∈ (jobSearchStep removePending world i a s).2) :
    ∃ r count, world.net i (replayJobSearch a) = .response r ∧ r.ok = true
      ∧ r.json.bind (announcedJobs world.lengthText) = some count
      ∧ title = "Found " ++ count ++ " new job matches!" := by
  unfold jobSearchStep at hmem
  cases hnet : world.net i (replayJobSearch a) with
  | rejects => simp [hnet] at hmem
  | response r =>
    rw [hnet] at hmem
    by_cases hok : r.ok = true
    · cases hs : removePending a.id s with
      | none => simp [hok, hs] at hmem
      | some s1 =>
        cases hc : r.json.bind (announcedJobs world.lengthText) with
        | none => simp [hok, hs, hc] at hmem
        | some count =>
          simp [hok, hs, hc] at hmem
          exact ⟨r, count, rfl, hok, hc, hmem.1⟩
    · simp [hok] at hmem

theorem no_notification_in_profileUpdateStep {σ : Type} (removePending : Nat → σ → Option σ)
    (world : SyncWorld) (i : Nat) (a : ProfileUpdate) (s : σ) (title tag : String)
    (displayed : Bool) :
    SyncEffect.showNotification title tag displayed
      ∉ (profileUpdateStep removePending world i a s).2 := by
  unfold profileUpdateStep
  cases world.net i (replayProfileUpdate a) with
  | rejects => simp
  | response r =>
    by_cases hok : r.ok = true
    · cases removePending a.id s <;> simp [hok]
    · simp [hok]

/-- C11 (amended). With the removal helpers of sw.js and any retrieved list:
a job application whose replay returns ok gets the notification "Job
application sent successfully!"; a job search whose replay returns ok gets the
notification "Found <length> new job matches!" exactly when the body is JSON
whose `jobs` is truthy with `jobs.length > 0` (for an array: when it is not
empty), `announcedJobs` giving the text of that length; and
`syncProfileUpdates` raises no notification at all. -/
theorem notification_after_ok_replay (getApplications : Store → Option (List Application))
    (getUpdates : Store → Option (List ProfileUpdate))
    (getSearches : Store → Option (List JobSearch)) (world : SyncWorld) (store : Store) :
    (∀ pending j a, getApplications store = some pending →
      pending[j]? = some a → (world.net j (replayApplication a)).isOk = true →
      SyncEffect.showNotification "Job application sent successfully!"
          "job-application-success" (!world.notifyRejects j)
        ∈ (syncJobApplicationsWith getApplications removePendingApplication world store).2)
    ∧ (∀ pending j a r count, getSearches store = some pending →
      pending[j]? = some a → world.net j (replayJobSearch a) = .response r → r.ok = true →
      r.json.bind (announcedJobs world.lengthText) = some count →
      SyncEffect.showNotification ("Found " ++ count ++ " new job matches!")
          "job-search-results" (!world.notifyRejects j)
        ∈ (syncJobSearchesWith getSearches removePendingJobSearch world store).2)
    ∧ (∀ title tag displayed,
      SyncEffect.showNotification title tag displayed
        ∈ (syncJobSearchesWith getSearches removePendingJobSearch world store).2 →
      ∃ pending j a r count, getSearches store = some pending
        ∧ pending[j]? = some a ∧ world.net j (replayJobSearch a) = .response r
        ∧ r.ok = true ∧ r.json.bind (announcedJobs world.lengthText) = some count
        ∧ title = "Found " ++ count ++ " new job matches!")
    ∧ (∀ items : List Json,
      announcedJobs world.lengthText (.obj [("jobs", .arr items)])
        = if 0 < items.length then some (toString items.length) else none)
    ∧ (∀ title tag displayed,
      SyncEffect.showNotification title tag displayed
        ∉ (syncProfileUpdatesWith getUpdates removePendingProfileUpdate world store).2) := by
  refine ⟨?_, ?_, ?_, ?_, ?_⟩
  · intro pending j a hget hj hok
    simp only [syncJobApplicationsWith, hget]
    refine mem_syncLoop_intro _ _ pending 0 store j a hj ?_
    intro s1
    have := notification_in_applicationStep removePendingApplication (fun _ _ => rfl)
      world j a s1 hok
    simpa using this
  · intro pending j a r count hget hj hnet hok hcount
    simp only [syncJobSearchesWith, hget]
    refine mem_syncLoop_intro _ _ pending 0 store j a hj ?_
    intro s1
    have := notification_in_jobSearchStep removePendingJobSearch (fun _ _ => rfl) world j a s1
      r count hnet hok hcount
    simpa using this
  · intro title tag displayed hmem
    unfold syncJobSearchesWith at hmem
    cases hget : getSearches store with
    | none => simp [hget] at hmem
    | some pending =>
      rw [hget] at hmem
      obtain ⟨j, a, s1, hj, hstep⟩ := mem_syncLoop_elim _ _ pending 0 store hmem
      have hstep1 : SyncEffect.showNotification title tag displayed
          ∈ (jobSearchStep removePendingJobSearch world j a s1).2 := by
        simpa using hstep
      obtain ⟨r, count, hnet, hok, hcount, htitle⟩ :=
        notification_of_jobSearchStep _ world j a s1 title tag displayed hstep1
      exact ⟨pending, j, a, r, count, rfl, hj, hnet, hok, hcount, htitle⟩
  · intro items
    rfl
  · intro title tag displayed hmem
    unfold syncProfileUpdatesWith at hmem
    cases hget : getUpdates store with
    | none => simp [hget] at hmem
    | some pending =>
      rw [hget] at hmem
      obtain ⟨j, a, s1, _, hstep⟩ := mem_syncLoop_elim _ _ pending 0 store hmem
      exact no_notification_in_profileUpdateStep _ world _ a s1 title tag displayed hstep

/-- Witness of C11 (amended): A, B, C retrieved, the replays of A and C
returning 200: the notification for the third application is raised; and a
search answered with a `jobs` object whose `length` is the string "5" gets the
notification "Found 5 new job matches!". -/
theorem notification_after_ok_replay_witness :
    SyncEffect.showNotification "Job application sent successfully!"
        "job-application-success" true
      ∈ (syncJobApplicationsWith queuedApplications removePendingApplication abcWorld
          abcStore).2
    ∧ SyncEffect.showNotification "Found 5 new job matches!" "job-search-results" true
      ∈ (syncJobSearchesWith (fun _ => some [searchS]) removePendingJobSearch
          stringLengthWorld abcStore).2 :=
  ⟨(notification_after_ok_replay queuedApplications getPendingProfileUpdates
      getPendingJobSearches abcWorld abcStore).1
      [applicationA, applicationB, applicationC] 2 applicationC rfl rfl rfl,
   (notification_after_ok_replay getPendingApplications getPendingProfileUpdates
      (fun _ => some [searchS]) stringLengthWorld abcStore).2.1 [searchS] 0 searchS
      { status := 200, statusText := "OK", headers := [],
        body := .json (.obj [("jobs", .obj [("length", .str "5")])]) }
      "5" rfl rfl rfl rfl rfl⟩

/-- C11 as stated fails. A job search whose replay returns 200 with an empty
`jobs` array is replayed and removed, and no notification is raised for it. -/
theorem search_without_matches_raises_no_notification :
    (noMatchWorld.net 0 (replayJobSearch searchS)).isOk = true
    ∧ fetchCalls (syncJobSearchesWith oneSearchHelpers.getPendingJobSearches
        oneSearchHelpers.removePendingJobSearch noMatchWorld abcStore).2
      = [replayJobSearch searchS]
    ∧ notificationTitles (syncJobSearchesWith oneSearchHelpers.getPendingJobSearches
        oneSearchHelpers.removePendingJobSearch noMatchWorld abcStore).2 = [] :=
  ⟨rfl, rfl, rfl⟩

/-! ## Push and notification clicks -/

theorem lookup_append_assoc {β : Type} (key : String) :
    ∀ (xs ys : List (String × β)),
      (xs ++ ys).lookup key = (xs.lookup key).orElse (fun _ => ys.lookup key) := by
  intro xs ys
  induction xs with
  | nil => simp
  | cons p rest ih =>
    obtain ⟨k, v⟩ := p
    by_cases hk : key = k
    · subst hk; simp [List.lookup]
    · have hne : (key == k) = false := by simpa using hk
      simp [List.lookup, hne, ih]

theorem lookup_map_value {β : Type} (key : String) (g : String → β → β) :
    ∀ (xs : List (String × β)),
      (xs.map (fun kv => (kv.1, g kv.1 kv.2))).lookup key = (xs.lookup key).map (g key) := by
  intro xs
  induction xs with
  | nil => simp
  | cons p rest ih =>
    obtain ⟨k, v⟩ := p
    by_cases hk : key = k
    · subst hk; simp [List.lookup]
    · have hne : (key == k) = false := by simpa using hk
      simp [List.lookup, hne, ih]

theorem lookup_filter_keeps {β : Type} (key : String) (q : String → Bool) (hq : q key = true) :
    ∀ (xs : List (String × β)),
      (xs.filter (fun kv => q kv.1)).lookup key = xs.lookup key := by
  intro xs
  induction xs with
  | nil => simp
  | cons p rest ih =>
    obtain ⟨k, v⟩ := p
    by_cases hk : key = k
    · subst hk; simp [List.filter_cons, List.lookup, hq]
    · have hne : (key == k) = false := by simpa using hk
      by_cases hqk : q k = true
      · simp [List.filter_cons, List.lookup, hne, hqk, ih]
      · simp [List.filter_cons, List.lookup, hne, hqk, ih]

theorem lookup_objectSpread {β : Type} (key : String) (a b : List (String × β)) :
    (objectSpread a b).lookup key = (b.lookup key).orElse (fun _ => a.lookup key) := by
  unfold objectSpread
  rw [lookup_append_assoc,
    lookup_map_value key (fun k v => (b.lookup k).getD v) a]
  cases ha : a.lookup key with
  | some v => cases hb : b.lookup key <;> simp [Option.orElse]
  | none =>
    have := lookup_filter_keeps key (fun k => (a.lookup k).isNone) (by simp [ha]) b
    cases hb : b.lookup key <;> simp [this, hb, Option.orElse]

theorem push_without_payload (now : Int) :
    onPush now none = .shown "AI Job Chommie" (defaultPushOptions now) := rfl

theorem push_with_json_payload (now : Int) (pushData : Json) (hnull : pushData ≠ .null) :
    ∃ options, onPush now (some (.json pushData)) = .shown "AI Job Chommie" options
      ∧ options.actions.map (fun a => a.action) = ["explore", "close"]
      ∧ options.body
        = (if truthy (pushData.field "body") then (pushData.field "body").getD .null
           else .str "Check out new job opportunities!")
      ∧ ∀ key, options.data.lookup key
        = ((ownProperties (pushData.field "data")).lookup key).orElse
            (fun _ => (defaultPushOptions now).data.lookup key) := by
  cases pushData with
  | null => exact absurd rfl hnull
  | bool b =>
    refine ⟨_, rfl, rfl, rfl, fun key => ?_⟩
    show List.lookup key (objectSpread _ _) = _
    exact lookup_objectSpread key _ _
  | num n =>
    refine ⟨_, rfl, rfl, rfl, fun key => ?_⟩
    show List.lookup key (objectSpread _ _) = _
    exact lookup_objectSpread key _ _
  | str t =>
    refine ⟨_, rfl, rfl, rfl, fun key => ?_⟩
    show List.lookup key (objectSpread _ _) = _
    exact lookup_objectSpread key _ _
  | arr items =>
    refine ⟨_, rfl, rfl, rfl, fun key => ?_⟩
    show List.lookup key (objectSpread _ _) = _
    exact lookup_objectSpread key _ _
  | obj fields =>
    refine ⟨_, rfl, rfl, rfl, fun key => ?_⟩
    show List.lookup key (objectSpread _ _) = _
    exact lookup_objectSpread key _ _

/-- C12, the code at the failing input. A push event whose payload is text
that is not JSON makes `event.data.json()` throw before `showNotification` is
reached, and so does the JSON payload `null` at `pushData.body`: no
notification is displayed. A push without payload displays the default
notification. -/
theorem push_with_malformed_payload_shows_nothing :
    onPush 0 (some (.text "New jobs near you")) = .throws
    ∧ onPush 0 (some (.json .null)) = .throws
    ∧ onPush 0 none = .shown "AI Job Chommie" (defaultPushOptions 0) :=
  ⟨rfl, rfl, rfl⟩

/-- C13, the code at the failing input. The listener never reads the action:
a click on "close" with an app window open closes the notification and then
opens "/", and with a client whose url equals the origin it focuses that
client; a click on "explore" with the app window https://app.example/ open
does not focus it, since that url differs from the origin, and opens "/". -/
theorem close_action_still_opens_window :
    onNotificationClick "https://app.example" true "close" [appWindow]
      = { closed := true, outcome := .opened "/" }
    ∧ onNotificationClick "https://app.example" true "close"
        [{ url := "https://app.example", focusable := true }]
      = { closed := true,
          outcome := .focused { url := "https://app.example", focusable := true } }
    ∧ onNotificationClick "https://app.example" true "explore" [appWindow]
      = { closed := true, outcome := .opened "/" }
    ∧ ∀ selfOrigin canOpenWindow clientList,
        onNotificationClick selfOrigin canOpenWindow "close" clientList
          = onNotificationClick selfOrigin canOpenWindow "explore" clientList := by
  refine ⟨by decide, by decide, by decide, ?_⟩
  intro selfOrigin canOpenWindow clientList
  rfl

/-! ## Lemmas on cache entries -/

theorem lookup_cons (other : String) (ns : String × Cache) (rest : CacheStorage) :
    CacheStorage.lookup other (ns :: rest)
      = if ns.1 = other then some ns.2 else CacheStorage.lookup other rest := by
  by_cases h : ns.1 = other <;> simp [CacheStorage.lookup, List.find?_cons, h]

theorem has_cons (other : String) (ns : String × Cache) (rest : CacheStorage) :
    CacheStorage.has other (ns :: rest)
      = (decide (ns.1 = other) || CacheStorage.has other rest) := by
  simp [CacheStorage.has]

theorem putIn_cons (name : String) (key : URL) (r : Response) (ns : String × Cache)
    (rest : CacheStorage) :
    CacheStorage.putIn name key r (ns :: rest)
      = (if ns.1 = name then (ns.1, Cache.put key r ns.2) else ns)
        :: CacheStorage.putIn name key r rest := rfl

theorem matchRequest_cons (other : URL) (e : URL × Response) (rest : Cache) :
    Cache.matchRequest other (e :: rest)
      = if e.1 = other then some e.2 else Cache.matchRequest other rest := by
  by_cases h : e.1 = other <;> simp [Cache.matchRequest, List.find?_cons, h]

theorem matchRequest_append_single (other key : URL) (r : Response) (hne : other ≠ key) :
    ∀ c : Cache, Cache.matchRequest other (c ++ [(key, r)]) = Cache.matchRequest other c := by
  intro c
  induction c with
  | nil =>
    rw [List.nil_append, matchRequest_cons, if_neg (fun h => hne h.symm)]
  | cons e rest ih =>
    rw [List.cons_append, matchRequest_cons, matchRequest_cons, ih]

theorem matchRequest_filter_other (other key : URL) (hne : other ≠ key) :
    ∀ c : Cache,
      Cache.matchRequest other (c.filter (fun e => !decide (e.1 = key)))
        = Cache.matchRequest other c := by
  intro c
  induction c with
  | nil => rfl
  | cons e rest ih =>
    by_cases he : e.1 = key
    · have hf : List.filter (fun e : URL × Response => !decide (e.1 = key)) (e :: rest)
          = List.filter (fun e => !decide (e.1 = key)) rest := by
        simp [List.filter_cons, he]
      have ho : ¬ e.1 = other := fun h => hne (h.symm.trans he)
      rw [hf, ih, matchRequest_cons, if_neg ho]
    · have hf : List.filter (fun e : URL × Response => !decide (e.1 = key)) (e :: rest)
          = e :: List.filter (fun e => !decide (e.1 = key)) rest := by
        simp [List.filter_cons, he]
      rw [hf, matchRequest_cons, matchRequest_cons, ih]

theorem Cache.matchRequest_put_other (key other : URL) (r : Response) (hne : other ≠ key)
    (c : Cache) : Cache.matchRequest other (Cache.put key r c) = Cache.matchRequest other c := by
  unfold Cache.put
  rw [matchRequest_append_single other key r hne, matchRequest_filter_other other key hne]

theorem lookup_putIn_other (name other : String) (key : URL) (r : Response)
    (hne : other ≠ name) :
    ∀ cs : CacheStorage, (cs.putIn name key r).lookup other = cs.lookup other := by
  intro cs
  induction cs with
  | nil => rfl
  | cons ns rest ih =>
    rw [putIn_cons, lookup_cons, lookup_cons, ih]
    by_cases hn : ns.1 = name
    · have ho : ¬ ns.1 = other := fun h => hne (h.symm.trans hn)
      rw [if_pos hn, if_neg ho, if_neg ho]
    · rw [if_neg hn]

theorem entry_putIn_other_key (name : String) (key other : URL) (r : Response)
    (hne : other ≠ key) :
    ∀ cs : CacheStorage, (cs.putIn name key r).entry name other = cs.entry name other := by
  intro cs
  induction cs with
  | nil => rfl
  | cons ns rest ih =>
    unfold CacheStorage.entry at ih ⊢
    rw [putIn_cons, lookup_cons, lookup_cons]
    by_cases hn : ns.1 = name
    · rw [if_pos hn, if_pos hn, if_pos hn]
      simp only [Option.some_bind]
      exact Cache.matchRequest_put_other key other r hne ns.2
    · rw [if_neg hn, if_neg hn, if_neg hn]
      exact ih

theorem has_putIn (name other : String) (key : URL) (r : Response) :
    ∀ cs : CacheStorage, (cs.putIn name key r).has other = cs.has other := by
  intro cs
  induction cs with
  | nil => rfl
  | cons ns rest ih =>
    rw [putIn_cons, has_cons, has_cons, ih]
    by_cases hn : ns.1 = name
    · rw [if_pos hn]
    · rw [if_neg hn]

theorem lookup_eq_none_of_has_false (name : String) :
    ∀ cs : CacheStorage, cs.has name = false → cs.lookup name = none := by
  intro cs
  induction cs with
  | nil => intro _; rfl
  | cons ns rest ih =>
    intro h
    rw [has_cons] at h
    have hn : ¬ ns.1 = name := by
      intro e; simp [e] at h
    have hrest : CacheStorage.has name rest = false := by
      simpa [hn] using h
    rw [lookup_cons, if_neg hn]
    exact ih hrest

theorem lookup_append_new (name other : String) (c : Cache) (hne : other ≠ name) :
    ∀ cs : CacheStorage, CacheStorage.lookup other (cs ++ [(name, c)]) = cs.lookup other := by
  intro cs
  induction cs with
  | nil =>
    rw [List.nil_append, lookup_cons, if_neg (fun h => hne h.symm)]
  | cons ns rest ih =>
    rw [List.cons_append, lookup_cons, lookup_cons, ih]

theorem lookup_append_empty (name : String) :
    ∀ cs : CacheStorage, cs.has name = false →
      CacheStorage.lookup name (cs ++ [(name, [])]) = some [] := by
  intro cs
  induction cs with
  | nil => intro _; rw [List.nil_append, lookup_cons, if_pos rfl]
  | cons ns rest ih =>
    intro h
    rw [has_cons] at h
    have hn : ¬ ns.1 = name := by
      intro e; simp [e] at h
    have hrest : CacheStorage.has name rest = false := by
      simpa [hn] using h
    rw [List.cons_append, lookup_cons, if_neg hn]
    exact ih hrest

theorem lookup_openCache_other (name other : String) (hne : other ≠ name) (cs : CacheStorage) :
    (cs.openCache name).lookup other = cs.lookup other := by
  unfold CacheStorage.openCache
  by_cases h : cs.has name = true
  · rw [if_pos h]
  · rw [if_neg h]
    exact lookup_append_new name other [] hne cs

theorem entry_openCache (name : String) (key : URL) (cs : CacheStorage) :
    (cs.openCache name).entry name key = cs.entry name key := by
  unfold CacheStorage.openCache
  by_cases h : cs.has name = true
  · rw [if_pos h]
  · rw [if_neg h]
    have h1 : cs.has name = false := by simpa using h
    unfold CacheStorage.entry
    rw [lookup_append_empty name cs h1, lookup_eq_none_of_has_false name cs h1]
    rfl

theorem lookup_deleteCache (name other : String) (cs : CacheStorage) :
    (cs.deleteCache name).lookup other = if other = name then none else cs.lookup other := by
  have := lookup_filter (fun n => !decide (n = name)) other cs
  unfold CacheStorage.deleteCache
  rw [this]
  by_cases h : other = name <;> simp [h]

/-! ## Control messages and dispatch -/

/-- C14 (amended). After a CLEAR_CACHE message, the namespaces CACHE_NAME and
API_CACHE_NAME no longer exist, and every namespace of another name is as it
was before. -/
theorem clear_cache_deletes_current_caches (fetchUrl : URL → NetOutcome)
    (urls : Option (List URL)) (caches : CacheStorage) (name : String) :
    (onMessage fetchUrl (some { type := "CLEAR_CACHE", urls := urls }) caches).caches.lookup name
      = if name = CACHE_NAME ∨ name = API_CACHE_NAME then none else caches.lookup name := by
  have hrun : (onMessage fetchUrl (some { type := "CLEAR_CACHE", urls := urls }) caches).caches
      = (caches.deleteCache CACHE_NAME).deleteCache API_CACHE_NAME := by
    simp [onMessage]
  rw [hrun, lookup_deleteCache, lookup_deleteCache]
  by_cases h1 : name = CACHE_NAME
  · simp [h1]
  · by_cases h2 : name = API_CACHE_NAME
    · simp [h2]
    · simp [h1, h2]

/-- C14 as stated fails. Version 2 installs while the namespace of version 1
still exists; after a CLEAR_CACHE message that namespace remains, with its
entry. -/
theorem clear_cache_leaves_other_namespaces :
    (install staleNet "https://app.example" versionOneCaches).2 = true
    ∧ clearedOverVersionOne.keys = ["ai-job-chommie-v1.0.0"]
    ∧ clearedOverVersionOne.entry "ai-job-chommie-v1.0.0" logoRequest.url
      = some (okResponse "old logo") :=
  ⟨rfl, rfl, rfl⟩

/-- C16. The sync listener runs `syncJobApplications` and nothing else for the
tag apply-job, `syncProfileUpdates` for update-profile, `syncJobSearches` for
search-jobs, and for every other tag it runs no routine: the storage is as
before and no call, hence no network request, is made. -/
theorem sync_listener_dispatch {σ : Type} (helpers : Helpers σ) (tag : String)
    (world : SyncWorld) (store : σ) :
    (tag = "apply-job" → onSyncWith helpers tag world store
      = syncJobApplicationsWith helpers.getPendingApplications
          helpers.removePendingApplication world store)
    ∧ (tag = "update-profile" → onSyncWith helpers tag world store
      = syncProfileUpdatesWith helpers.getPendingProfileUpdates
          helpers.removePendingProfileUpdate world store)
    ∧ (tag = "search-jobs" → onSyncWith helpers tag world store
      = syncJobSearchesWith helpers.getPendingJobSearches
          helpers.removePendingJobSearch world store)
    ∧ (tag ≠ "apply-job" → tag ≠ "update-profile" → tag ≠ "search-jobs" →
      onSyncWith helpers tag world store = (store, [])
      ∧ fetchCalls (onSyncWith helpers tag world store).2 = []) := by
  refine ⟨?_, ?_, ?_, ?_⟩
  · intro h
    subst h
    simp [onSyncWith, SYNC_TAGS.APPLY_JOB]
  · intro h
    subst h
    simp [onSyncWith, SYNC_TAGS.APPLY_JOB, SYNC_TAGS.UPDATE_PROFILE]
  · intro h
    subst h
    simp [onSyncWith, SYNC_TAGS.APPLY_JOB, SYNC_TAGS.UPDATE_PROFILE, SYNC_TAGS.SEARCH_JOBS]
  · intro h1 h2 h3
    have : onSyncWith helpers tag world store = (store, []) := by
      simp [onSyncWith, SYNC_TAGS.APPLY_JOB, SYNC_TAGS.UPDATE_PROFILE, SYNC_TAGS.SEARCH_JOBS,
        h1, h2, h3]
    rw [this]
    exact ⟨rfl, rfl⟩

/-- Witness of C16: the tag apply-job over the queue storage replays A, B, C;
the tag periodic-refresh does nothing. -/
theorem sync_listener_dispatch_witness :
    onSyncWith queueHelpers "apply-job" abcWorld abcStore
      = syncJobApplicationsWith queuedApplications dequeueApplication abcWorld abcStore
    ∧ fetchCalls (onSyncWith queueHelpers "periodic-refresh" abcWorld abcStore).2 = [] :=
  ⟨(sync_listener_dispatch queueHelpers "apply-job" abcWorld abcStore).1 rfl,
   ((sync_listener_dispatch queueHelpers "periodic-refresh" abcWorld abcStore).2.2.2
      (by decide) (by decide) (by decide)).2⟩

/-- C17. The fetch listener supplies no response for a request whose method is
not GET, and such a request leaves the installation (caches included) as it
was; a GET request whose path starts with /api/ is answered by
`handleApiRequest`, and every other GET request by `handleStaticRequest`. -/
theorem fetch_listener_dispatch (selfOrigin : String) (net : NetOutcome) (request : Request)
    (inst : Installation) :
    (request.method ≠ "GET" →
      onFetch selfOrigin net request inst.caches = none
      ∧ (pageFetch selfOrigin net request inst).2 = inst)
    ∧ (request.method = "GET" → startsWith request.url.pathname "/api/" = true →
      onFetch selfOrigin net request inst.caches
        = some (handleApiRequest net request inst.caches))
    ∧ (request.method = "GET" → startsWith request.url.pathname "/api/" = false →
      onFetch selfOrigin net request inst.caches
        = some (handleStaticRequest selfOrigin net request inst.caches)) := by
  refine ⟨?_, ?_, ?_⟩
  · intro h
    simp [pageFetch, onFetch, h]
  · intro h hp
    simp [onFetch, h, hp]
  · intro h hp
    simp [onFetch, h, hp]

/-- Witness of C17: a POST passes through, /api/auth/me goes to the API
handler, /logo.png to the static handler. -/
theorem fetch_listener_dispatch_witness :
    onFetch "https://app.example" .rejects applyRequest emptyInstallation.caches = none
    ∧ onFetch "https://app.example" .rejects profileRequest emptyInstallation.caches
      = some (handleApiRequest .rejects profileRequest emptyInstallation.caches)
    ∧ onFetch "https://app.example" .rejects logoRequest emptyInstallation.caches
      = some (handleStaticRequest "https://app.example" .rejects logoRequest
          emptyInstallation.caches) :=
  ⟨((fetch_listener_dispatch "https://app.example" .rejects applyRequest
      emptyInstallation).1 (by decide)).1,
   (fetch_listener_dispatch "https://app.example" .rejects profileRequest
      emptyInstallation).2.1 rfl rfl,
   (fetch_listener_dispatch "https://app.example" .rejects logoRequest
      emptyInstallation).2.2 rfl rfl⟩

/-- C18. A GET request whose mode is not navigate, whose network fetch rejects
and which no cache entry matches is answered by `handleStaticRequest` with
status 503 and status text "Service Unavailable". -/
theorem static_offline_response_when_no_network_and_no_cache (selfOrigin : String)
    (request : Request) (caches : CacheStorage) (_hget : request.method = "GET")
    (hmode : request.mode ≠ "navigate")
    (hmiss : caches.matchRequest request.url = none) :
    ∃ r, (handleStaticRequest selfOrigin .rejects request caches).result = .response r
      ∧ r.status = 503 ∧ r.statusText = "Service Unavailable" := by
  refine ⟨staticOfflineResponse, ?_, rfl, rfl⟩
  simp [handleStaticRequest, fetchPlain, hmiss, hmode]

/-- Witness of C18: the logo is requested with no network and no cache. -/
theorem static_offline_response_when_no_network_and_no_cache_witness :
    ∃ r, (handleStaticRequest "https://app.example" .rejects logoRequest []).result
        = .response r
      ∧ r.status = 503 ∧ r.statusText = "Service Unavailable" :=
  static_offline_response_when_no_network_and_no_cache "https://app.example" logoRequest []
    rfl (by decide) rfl

/-! ## Cache writes of the handlers -/

theorem entry_cacheResponse (name : String) (request : Request) (r : Response)
    (cs : CacheStorage) :
    (cacheResponse name request r cs).entry name request.url = some r :=
  lookup_cacheResponse name request r cs

theorem entry_cacheResponse_other_key (name : String) (request : Request) (r : Response)
    (cs : CacheStorage) (other : URL) (hne : other ≠ request.url) :
    (cacheResponse name request r cs).entry name other = cs.entry name other := by
  unfold cacheResponse
  rw [entry_putIn_other_key name request.url other r hne, entry_openCache]

theorem lookup_cacheResponse_other (name other : String) (request : Request) (r : Response)
    (cs : CacheStorage) (hne : other ≠ name) :
    (cacheResponse name request r cs).lookup other = cs.lookup other := by
  unfold cacheResponse
  rw [lookup_putIn_other name other request.url r hne, lookup_openCache_other name other hne]

/-- C19. For a GET request and any cache state: when the network attempt of a
handler returns an ok response, that response becomes the entry for the
request in the handler's namespace, the entries for all other keys and all
other namespaces are as before; and when the attempt does not return an ok
response the handler leaves the cache storage as it was. -/
theorem ok_response_stored_under_request_key (selfOrigin : String) (net : NetOutcome)
    (request : Request) (caches : CacheStorage) (_hget : request.method = "GET") :
    (∀ live, apiFetch request net = .response live → live.ok = true →
      (handleApiRequest net request caches).caches.entry API_CACHE_NAME request.url = some live
      ∧ (∀ other, other ≠ request.url →
          (handleApiRequest net request caches).caches.entry API_CACHE_NAME other
            = caches.entry API_CACHE_NAME other)
      ∧ (∀ name, name ≠ API_CACHE_NAME →
          (handleApiRequest net request caches).caches.lookup name = caches.lookup name))
    ∧ ((∀ live, apiFetch request net = .response live → live.ok = false) →
      (handleApiRequest net request caches).caches = caches)
    ∧ (∀ live, fetchPlain net = .response live → live.ok = true →
      (handleStaticRequest selfOrigin net request caches).caches.entry CACHE_NAME request.url
        = some live
      ∧ (∀ other, other ≠ request.url →
          (handleStaticRequest selfOrigin net request caches).caches.entry CACHE_NAME other
            = caches.entry CACHE_NAME other)
      ∧ (∀ name, name ≠ CACHE_NAME →
          (handleStaticRequest selfOrigin net request caches).caches.lookup name
            = caches.lookup name))
    ∧ ((∀ live, fetchPlain net = .response live → live.ok = false) →
      (handleStaticRequest selfOrigin net request caches).caches = caches) := by
  refine ⟨?_, ?_, ?_, ?_⟩
  · intro live hlive hok
    have hc : (handleApiRequest net request caches).caches
        = cacheResponse API_CACHE_NAME request live caches := by
      simp [handleApiRequest, hlive, hok]
    rw [hc]
    exact ⟨entry_cacheResponse _ _ _ _,
      fun other hne => entry_cacheResponse_other_key _ _ _ _ other hne,
      fun name hne => lookup_cacheResponse_other _ name _ _ _ hne⟩
  · intro hno
    unfold handleApiRequest
    cases hat : apiFetch request net with
    | response r => simp [hno r hat]
    | failed => cases caches.matchRequest request.url <;> rfl
    | pending => rfl
  · intro live hlive hok
    have hc : (handleStaticRequest selfOrigin net request caches).caches
        = cacheResponse CACHE_NAME request live caches := by
      simp [handleStaticRequest, hlive, hok]
    rw [hc]
    exact ⟨entry_cacheResponse _ _ _ _,
      fun other hne => entry_cacheResponse_other_key _ _ _ _ other hne,
      fun name hne => lookup_cacheResponse_other _ name _ _ _ hne⟩
  · intro hno
    unfold handleStaticRequest
    cases hat : fetchPlain net with
    | response r => simp [hno r hat]
    | failed =>
      cases caches.matchRequest request.url with
      | some cached => rfl
      | none =>
        simp only
        split
        · split <;> rfl
        · rfl
    | pending => rfl

/-- Witness of C19: the health check is answered 200 while the API namespace
holds an older entry for it and an entry for another request. -/
theorem ok_response_stored_under_request_key_witness :
    (handleApiRequest (.responds 40 (okResponse "up")) healthRequest
        [(API_CACHE_NAME, [(healthRequest.url, okResponse "old"),
          (profileRequest.url, okResponse "me")])]).caches.entry API_CACHE_NAME healthRequest.url
      = some (okResponse "up")
    ∧ (handleApiRequest (.responds 40 (okResponse "up")) healthRequest
        [(API_CACHE_NAME, [(healthRequest.url, okResponse "old"),
          (profileRequest.url, okResponse "me")])]).caches.entry API_CACHE_NAME
          profileRequest.url
      = CacheStorage.entry API_CACHE_NAME profileRequest.url
          [(API_CACHE_NAME, [(healthRequest.url, okResponse "old"),
            (profileRequest.url, okResponse "me")])] :=
  ⟨((ok_response_stored_under_request_key "https://app.example"
      (.responds 40 (okResponse "up")) healthRequest
      [(API_CACHE_NAME, [(healthRequest.url, okResponse "old"),
        (profileRequest.url, okResponse "me")])] rfl).1 (okResponse "up") rfl rfl).1,
   ((ok_response_stored_under_request_key "https://app.example"
      (.responds 40 (okResponse "up")) healthRequest
      [(API_CACHE_NAME, [(healthRequest.url, okResponse "old"),
        (profileRequest.url, okResponse "me")])] rfl).1 (okResponse "up") rfl rfl).2.1
      profileRequest.url (by decide)⟩

theorem api_handler_never_undefined (net : NetOutcome) (request : Request)
    (caches : CacheStorage) :
    (handleApiRequest net request caches).result = .pending
    ∨ ∃ r, (handleApiRequest net request caches).result = .response r := by
  unfold handleApiRequest
  cases apiFetch request net with
  | response r => by_cases hok : r.ok = true <;> simp [hok]
  | failed => cases caches.matchRequest request.url <;> simp
  | pending => simp

/-- C20, the code at the failing input. After installation and a CLEAR_CACHE
message, a GET navigation whose fetch rejects makes `handleStaticRequest`
resolve to `undefined`, which the page's fetch sees as a network error, where
the claim promises a defined response. -/
theorem static_navigation_settles_undefined :
    dashboardNavigation.method = "GET"
    ∧ (install staleNet "https://app.example" []).2 = true
    ∧ (handleStaticRequest "https://app.example" .rejects dashboardNavigation
        clearedCaches).result.toAttempt = .failed
    ∧ (pageFetch "https://app.example" .rejects dashboardNavigation
        { caches := clearedCaches, store := emptyInstallation.store }).1 = .failed :=
  ⟨rfl, rfl, rfl, rfl⟩

/-! ## The message listener -/

theorem addAll_eq (fetchUrl : URL → NetOutcome) (name : String) (urls : List URL)
    (caches : CacheStorage) :
    addAll fetchUrl name urls caches
      = if urls.Nodup then
          (urls.mapM (fetchOk fetchUrl)).map (fun entries => storeAll name entries caches)
        else none := rfl

theorem mapM_option_cons {α β : Type} (f : α → Option β) (a : α) (as : List α) :
    (a :: as).mapM f = (f a).bind (fun b => (as.mapM f).map (fun bs => b :: bs)) := by
  rw [List.mapM_cons]
  cases f a with
  | none => rfl
  | some b =>
    cases as.mapM f with
    | none => rfl
    | some bs => rfl

theorem fetchOk_some (fetchUrl : URL → NetOutcome) (u : URL) (e : URL × Response)
    (h : fetchOk fetchUrl u = some e) :
    e.1 = u ∧ ∃ ms, fetchUrl u = .responds ms e.2 ∧ e.2.ok = true := by
  unfold fetchOk at h
  cases hnet : fetchUrl u with
  | responds ms r =>
    rw [hnet] at h
    by_cases hok : r.ok = true
    · simp only [fetchPlain, hok, if_true, Option.some.injEq] at h
      subst h
      exact ⟨rfl, ms, rfl, hok⟩
    · simp [fetchPlain, hok] at h
  | rejects => rw [hnet] at h; simp [fetchPlain] at h
  | never => rw [hnet] at h; simp [fetchPlain] at h

theorem fetchOk_of_ok (fetchUrl : URL → NetOutcome) (u : URL) (ms : Nat) (r : Response)
    (hnet : fetchUrl u = .responds ms r) (hok : r.ok = true) :
    fetchOk fetchUrl u = some (u, r) := by
  simp [fetchOk, hnet, fetchPlain, hok]

theorem mapM_fetchOk_spec (fetchUrl : URL → NetOutcome) :
    ∀ (urls : List URL) (entries : List (URL × Response)),
      urls.mapM (fetchOk fetchUrl) = some entries →
      entries.map Prod.fst = urls ∧ ∀ e ∈ entries, fetchOk fetchUrl e.1 = some e := by
  intro urls
  induction urls with
  | nil =>
    intro entries h
    have : entries = [] := by
      have h0 : ([] : List URL).mapM (fetchOk fetchUrl) = some [] := rfl
      rw [h0] at h
      exact (Option.some.inj h).symm
    subst this
    simp
  | cons u rest ih =>
    intro entries h
    rw [mapM_option_cons] at h
    cases hu : fetchOk fetchUrl u with
    | none => rw [hu] at h; simp at h
    | some e =>
      rw [hu] at h
      cases hrest : rest.mapM (fetchOk fetchUrl) with
      | none => rw [hrest] at h; simp at h
      | some es =>
        rw [hrest] at h
        have hent : entries = e :: es := by
          simpa using h.symm
        subst hent
        obtain ⟨hkeys, hall⟩ := ih es hrest
        have he := (fetchOk_some fetchUrl u e hu).1
        refine ⟨by simp [hkeys, he], ?_⟩
        intro e1 he1
        rcases List.mem_cons.mp he1 with h1 | h1
        · subst h1; rw [he]; exact hu
        · exact hall e1 h1

theorem mapM_fetchOk_total (fetchUrl : URL → NetOutcome) :
    ∀ (urls : List URL), (∀ u ∈ urls, ∃ ms r, fetchUrl u = .responds ms r ∧ r.ok = true) →
      ∃ entries, urls.mapM (fetchOk fetchUrl) = some entries := by
  intro urls
  induction urls with
  | nil => intro _; exact ⟨[], rfl⟩
  | cons u rest ih =>
    intro h
    obtain ⟨ms, r, hnet, hok⟩ := h u (by simp)
    obtain ⟨es, hes⟩ := ih (fun v hv => h v (by simp [hv]))
    refine ⟨(u, r) :: es, ?_⟩
    rw [mapM_option_cons, fetchOk_of_ok fetchUrl u ms r hnet hok, hes]
    rfl

theorem lookup_storeAll_other (name other : String) (hne : other ≠ name) :
    ∀ (entries : List (URL × Response)) (cs : CacheStorage),
      (storeAll name entries cs).lookup other = cs.lookup other := by
  intro entries
  induction entries with
  | nil => intro cs; rfl
  | cons e rest ih =>
    intro cs
    show (storeAll name rest (cs.putIn name e.1 e.2)).lookup other = cs.lookup other
    rw [ih, lookup_putIn_other name other e.1 e.2 hne]

theorem has_storeAll (name other : String) :
    ∀ (entries : List (URL × Response)) (cs : CacheStorage),
      (storeAll name entries cs).has other = cs.has other := by
  intro entries
  induction entries with
  | nil => intro cs; rfl
  | cons e rest ih =>
    intro cs
    show (storeAll name rest (cs.putIn name e.1 e.2)).has other = cs.has other
    rw [ih, has_putIn]

theorem entry_storeAll_other_key (name : String) (key : URL) :
    ∀ (entries : List (URL × Response)) (cs : CacheStorage),
      key ∉ entries.map Prod.fst →
      (storeAll name entries cs).entry name key = cs.entry name key := by
  intro entries
  induction entries with
  | nil => intro cs _; rfl
  | cons e rest ih =>
    intro cs hkey
    have hne : key ≠ e.1 := by
      intro h; exact hkey (by simp [h])
    have hrest : key ∉ rest.map Prod.fst := by
      intro h; exact hkey (by simp [h])
    show (storeAll name rest (cs.putIn name e.1 e.2)).entry name key = cs.entry name key
    rw [ih _ hrest, entry_putIn_other_key name e.1 key e.2 hne]

theorem entry_storeAll_mem (name : String) :
    ∀ (entries : List (URL × Response)) (cs : CacheStorage), cs.has name = true →
      (∀ e1 ∈ entries, ∀ e2 ∈ entries, e1.1 = e2.1 → e1.2 = e2.2) →
      ∀ e ∈ entries, (storeAll name entries cs).entry name e.1 = some e.2 := by
  intro entries
  induction entries with
  | nil => intro cs _ _ e he; simp at he
  | cons e0 rest ih =>
    intro cs hhas hfun e he
    have hhas1 : (cs.putIn name e0.1 e0.2).has name = true := by
      rw [has_putIn]; exact hhas
    have hfun1 : ∀ e1 ∈ rest, ∀ e2 ∈ rest, e1.1 = e2.1 → e1.2 = e2.2 :=
      fun e1 h1 e2 h2 => hfun e1 (by simp [h1]) e2 (by simp [h2])
    show (storeAll name rest (cs.putIn name e0.1 e0.2)).entry name e.1 = some e.2
    by_cases hin : e.1 ∈ rest.map Prod.fst
    · obtain ⟨e2, he2, hk⟩ := List.mem_map.mp hin
      have := ih _ hhas1 hfun1 e2 he2
      rw [hk] at this
      rw [this, hfun e2 (by simp [he2]) e he hk]
    · rw [entry_storeAll_other_key name e.1 rest _ hin]
      have hk : e.1 = e0.1 := by
        rcases List.mem_cons.mp he with h | h
        · rw [h]
        · exact absurd (List.mem_map.mpr ⟨e, h, rfl⟩) hin
      have hv : e.2 = e0.2 := hfun e he e0 (by simp) hk
      rw [hk, hv]
      exact lookup_putIn_of_has name e0.1 e0.2 cs hhas

theorem cacheUrls_run (fetchUrl : URL → NetOutcome) (urls : Option (List URL))
    (caches : CacheStorage) :
    (onMessage fetchUrl (some { type := "CACHE_URLS", urls := urls }) caches).caches
      = match urls with
        | some list =>
          (addAll fetchUrl CACHE_NAME list (caches.openCache CACHE_NAME)).getD
            (caches.openCache CACHE_NAME)
        | none => caches.openCache CACHE_NAME := by
  simp [onMessage]

/-- C15. A message without data, or with a type other than the three
directives, does nothing: caches as before, no force-activation.
SKIP_WAITING only force-activates. CLEAR_CACHE only deletes the two
current namespaces. CACHE_URLS only works on the static namespace: no
force-activation, every other namespace and every entry for a URL not
supplied are as before; when the supplied URLs are pairwise distinct and all
fetched with an ok response each of them gets its response as entry, and when
a URL is supplied twice no entry of the static namespace changes. -/
theorem message_listener_dispatch (fetchUrl : URL → NetOutcome) (caches : CacheStorage) :
    ((onMessage fetchUrl none caches).caches = caches
      ∧ (onMessage fetchUrl none caches).skipWaiting = false)
    ∧ (∀ d : MessageData, d.type ≠ "SKIP_WAITING" → d.type ≠ "CACHE_URLS" →
        d.type ≠ "CLEAR_CACHE" →
        (onMessage fetchUrl (some d) caches).caches = caches
        ∧ (onMessage fetchUrl (some d) caches).skipWaiting = false)
    ∧ (∀ urls,
        (onMessage fetchUrl (some { type := "SKIP_WAITING", urls := urls }) caches).skipWaiting
          = true
        ∧ (onMessage fetchUrl (some { type := "SKIP_WAITING", urls := urls }) caches).caches
          = caches)
    ∧ (∀ urls,
        (onMessage fetchUrl (some { type := "CLEAR_CACHE", urls := urls }) caches).skipWaiting
          = false
        ∧ (onMessage fetchUrl (some { type := "CLEAR_CACHE", urls := urls }) caches).caches
          = (caches.deleteCache CACHE_NAME).deleteCache API_CACHE_NAME)
    ∧ (∀ urls,
        (onMessage fetchUrl (some { type := "CACHE_URLS", urls := urls }) caches).skipWaiting
          = false
        ∧ (∀ name, name ≠ CACHE_NAME →
            (onMessage fetchUrl (some { type := "CACHE_URLS", urls := urls })
              caches).caches.lookup name = caches.lookup name)
        ∧ (∀ list, urls = some list → ∀ key, key ∉ list →
            (onMessage fetchUrl (some { type := "CACHE_URLS", urls := urls })
              caches).caches.entry CACHE_NAME key = caches.entry CACHE_NAME key)
        ∧ (∀ list, urls = some list → list.Nodup →
            (∀ u ∈ list, ∃ ms r, fetchUrl u = .responds ms r ∧ r.ok = true) →
            ∀ u ∈ list, ∃ ms r, fetchUrl u = .responds ms r
              ∧ (onMessage fetchUrl (some { type := "CACHE_URLS", urls := urls })
                  caches).caches.entry CACHE_NAME u = some r)
        ∧ (∀ list, urls = some list → ¬ list.Nodup → ∀ key,
            (onMessage fetchUrl (some { type := "CACHE_URLS", urls := urls })
              caches).caches.entry CACHE_NAME key = caches.entry CACHE_NAME key)) := by
  refine ⟨⟨rfl, rfl⟩, ?_, ?_, ?_, ?_⟩
  · intro d h1 h2 h3
    simp [onMessage, h1, h2, h3]
  · intro urls
    simp [onMessage]
  · intro urls
    simp [onMessage]
  · intro urls
    refine ⟨by simp [onMessage], ?_, ?_, ?_, ?_⟩
    · intro name hne
      rw [cacheUrls_run]
      cases urls with
      | none => exact lookup_openCache_other CACHE_NAME name hne caches
      | some list =>
        show ((addAll fetchUrl CACHE_NAME list (caches.openCache CACHE_NAME)).getD
          (caches.openCache CACHE_NAME)).lookup name = caches.lookup name
        rw [addAll_eq]
        by_cases hnd : list.Nodup
        · rw [if_pos hnd]
          cases List.mapM (fetchOk fetchUrl) list with
          | none => exact lookup_openCache_other CACHE_NAME name hne caches
          | some entries =>
            show (storeAll CACHE_NAME entries (caches.openCache CACHE_NAME)).lookup name
              = caches.lookup name
            rw [lookup_storeAll_other CACHE_NAME name hne,
              lookup_openCache_other CACHE_NAME name hne]
        · rw [if_neg hnd]
          exact lookup_openCache_other CACHE_NAME name hne caches
    · intro list hlist key hkey
      subst hlist
      rw [cacheUrls_run]
      show ((addAll fetchUrl CACHE_NAME list (caches.openCache CACHE_NAME)).getD
        (caches.openCache CACHE_NAME)).entry CACHE_NAME key = caches.entry CACHE_NAME key
      rw [addAll_eq]
      by_cases hnd : list.Nodup
      · rw [if_pos hnd]
        cases hm : List.mapM (fetchOk fetchUrl) list with
        | none => exact entry_openCache CACHE_NAME key caches
        | some entries =>
          show (storeAll CACHE_NAME entries (caches.openCache CACHE_NAME)).entry CACHE_NAME key
            = caches.entry CACHE_NAME key
          have hkeys := (mapM_fetchOk_spec fetchUrl list entries hm).1
          rw [entry_storeAll_other_key CACHE_NAME key entries _ (by rw [hkeys]; exact hkey),
            entry_openCache]
      · rw [if_neg hnd]
        exact entry_openCache CACHE_NAME key caches
    · intro list hlist hnd hall u hu
      subst hlist
      obtain ⟨entries, hm⟩ := mapM_fetchOk_total fetchUrl list hall
      obtain ⟨hkeys, hspec⟩ := mapM_fetchOk_spec fetchUrl list entries hm
      have hrun : (onMessage fetchUrl (some { type := "CACHE_URLS", urls := some list })
          caches).caches = storeAll CACHE_NAME entries (caches.openCache CACHE_NAME) := by
        rw [cacheUrls_run]
        show (addAll fetchUrl CACHE_NAME list (caches.openCache CACHE_NAME)).getD
          (caches.openCache CACHE_NAME) = _
        rw [addAll_eq, if_pos hnd, hm]
        rfl
      have hmem : u ∈ entries.map Prod.fst := by rw [hkeys]; exact hu
      obtain ⟨e, he, hk⟩ := List.mem_map.mp hmem
      obtain ⟨_, ms, hnet, _⟩ := fetchOk_some fetchUrl e.1 e (hspec e he)
      have hfun : ∀ e1 ∈ entries, ∀ e2 ∈ entries, e1.1 = e2.1 → e1.2 = e2.2 := by
        intro e1 h1 e2 h2 h12
        have a1 := hspec e1 h1
        have a2 := hspec e2 h2
        rw [h12] at a1
        rw [a1] at a2
        exact congrArg Prod.snd (Option.some.inj a2)
      have hentry := entry_storeAll_mem CACHE_NAME entries (caches.openCache CACHE_NAME)
        (has_openCache CACHE_NAME caches) hfun e he
      rw [hk] at hentry hnet
      exact ⟨ms, e.2, hnet, by rw [hrun]; exact hentry⟩
    · intro list hlist hnd key
      subst hlist
      rw [cacheUrls_run]
      show ((addAll fetchUrl CACHE_NAME list (caches.openCache CACHE_NAME)).getD
        (caches.openCache CACHE_NAME)).entry CACHE_NAME key = caches.entry CACHE_NAME key
      rw [addAll_eq, if_neg hnd]
      exact entry_openCache CACHE_NAME key caches

/-- Witness of C15: a message of type PING changes nothing, and a CACHE_URLS
message naming /logo.png on an online network stores the response for it. -/
theorem message_listener_dispatch_witness :
    (onMessage staleNet (some { type := "PING", urls := none }) installedCaches).caches
      = installedCaches
    ∧ ∃ ms r, staleNet logoRequest.url = .responds ms r
      ∧ (onMessage staleNet (some { type := "CACHE_URLS", urls := some [logoRequest.url] })
          []).caches.entry CACHE_NAME logoRequest.url = some r :=
  ⟨((message_listener_dispatch staleNet installedCaches).2.1
      { type := "PING", urls := none } (by decide) (by decide) (by decide)).1,
   ((message_listener_dispatch staleNet []).2.2.2.2 (some [logoRequest.url])).2.2.2.1
      [logoRequest.url] rfl (by simp)
      (fun u _ => ⟨50, okResponse "stale", rfl, rfl⟩) logoRequest.url (by simp)⟩

/-! ## The API client -/

/-- C21. Each of the twelve listed methods of `APIClient` passes to `request`
the path, HTTP method and JSON body of the interface table. -/
theorem api_methods_follow_interface (email password userData searchParams applicationData
    profileData plan reference : Json) (jobId : String) :
    ((APIClient.login email password).endpoint = "/auth/login"
      ∧ (APIClient.login email password).httpMethod = "POST"
      ∧ (APIClient.login email password).body
        = some (.json (.obj [("email", email), ("password", password)])))
    ∧ ((APIClient.register userData).endpoint = "/auth/register"
      ∧ (APIClient.register userData).httpMethod = "POST"
      ∧ (APIClient.register userData).body = some (.json userData))
    ∧ (APIClient.logout.endpoint = "/auth/logout" ∧ APIClient.logout.httpMethod = "POST"
      ∧ APIClient.logout.body = none)
    ∧ (APIClient.getCurrentUser.endpoint = "/auth/me"
      ∧ APIClient.getCurrentUser.httpMethod = "GET"
      ∧ APIClient.getCurrentUser.body = none)
    ∧ ((APIClient.searchJobs searchParams).endpoint = "/jobs/search"
      ∧ (APIClient.searchJobs searchParams).httpMethod = "POST"
      ∧ (APIClient.searchJobs searchParams).body = some (.json searchParams))
    ∧ ((APIClient.applyToJob jobId applicationData).endpoint = "/jobs/" ++ jobId ++ "/apply"
      ∧ (APIClient.applyToJob jobId applicationData).httpMethod = "POST"
      ∧ (APIClient.applyToJob jobId applicationData).body = some (.json applicationData))
    ∧ ((APIClient.updateProfile profileData).endpoint = "/profile"
      ∧ (APIClient.updateProfile profileData).httpMethod = "PUT"
      ∧ (APIClient.updateProfile profileData).body = some (.json profileData))
    ∧ ((APIClient.initializePayment plan).endpoint = "/payment/initialize"
      ∧ (APIClient.initializePayment plan).httpMethod = "POST"
      ∧ (APIClient.initializePayment plan).body = some (.json (.obj [("plan", plan)])))
    ∧ ((APIClient.verifyPayment reference).endpoint = "/payment/verify"
      ∧ (APIClient.verifyPayment reference).httpMethod = "POST"
      ∧ (APIClient.verifyPayment reference).body
        = some (.json (.obj [("reference", reference)])))
    ∧ (APIClient.getPaymentConfig.endpoint = "/payment/config"
      ∧ APIClient.getPaymentConfig.httpMethod = "GET"
      ∧ APIClient.getPaymentConfig.body = none)
    ∧ (APIClient.getSubscriptionStatus.endpoint = "/subscription/status"
      ∧ APIClient.getSubscriptionStatus.httpMethod = "GET"
      ∧ APIClient.getSubscriptionStatus.body = none)
    ∧ (APIClient.cancelSubscription.endpoint = "/subscription/cancel"
      ∧ APIClient.cancelSubscription.httpMethod = "POST"
      ∧ APIClient.cancelSubscription.body = none) :=
  ⟨⟨rfl, rfl, rfl⟩, ⟨rfl, rfl, rfl⟩, ⟨rfl, rfl, rfl⟩, ⟨rfl, rfl, rfl⟩, ⟨rfl, rfl, rfl⟩,
   ⟨rfl, rfl, rfl⟩, ⟨rfl, rfl, rfl⟩, ⟨rfl, rfl, rfl⟩, ⟨rfl, rfl, rfl⟩, ⟨rfl, rfl, rfl⟩,
   ⟨rfl, rfl, rfl⟩, ⟨rfl, rfl, rfl⟩⟩

theorem config_credentials (options : RequestOptions) :
    (APIClient.config options).credentials = "include" := rfl

theorem config_default_headers (options : RequestOptions) (h : options.headers = none) :
    (APIClient.config options).headers = [("Content-Type", "application/json")] := by
  simp [APIClient.config, h, objectSpread, APIClient.defaultHeaders]

theorem config_own_headers (options : RequestOptions) (own : List (String × String))
    (h : options.headers = some own) : (APIClient.config options).headers = own := by
  simp [APIClient.config, h]

/-- C22. For every method of `APIClient` with any arguments, the config built
by `request` has credentials "include", and when the method passes no headers
of its own the config's headers are exactly Content-Type: application/json;
`uploadCV` is the only method that passes headers. -/
theorem request_config_credentials_and_content_type (m : ApiMethod) :
    (APIClient.config m.call.options).credentials = "include"
    ∧ (m.call.options.headers = none →
        (APIClient.config m.call.options).headers.lookup "Content-Type"
          = some "application/json")
    ∧ (m.call.options.headers ≠ none → ∃ formData, m = .uploadCV formData) := by
  refine ⟨rfl, ?_, ?_⟩
  · intro h
    rw [config_default_headers _ h]
    rfl
  · intro h
    cases m <;> first | exact absurd rfl h | exact ⟨_, rfl⟩

/-- Witness of C22: the login call. -/
theorem request_config_credentials_and_content_type_witness :
    (APIClient.config (ApiMethod.login (.str "a@b.c") (.str "pw")).call.options).headers.lookup
        "Content-Type" = some "application/json" :=
  (request_config_credentials_and_content_type (.login (.str "a@b.c") (.str "pw"))).2.1 rfl

/-- C23. For every form-data argument the config built for `uploadCV` has no
header at all, so no Content-Type; and whenever `options.headers` is supplied
the headers of the config are exactly `options.headers`. -/
theorem upload_cv_has_no_content_type (formData : String) :
    (APIClient.config (APIClient.uploadCV formData).options).headers = []
    ∧ (APIClient.config (APIClient.uploadCV formData).options).headers.lookup "Content-Type"
      = none
    ∧ (∀ (options : RequestOptions) (own : List (String × String)),
        options.headers = some own → (APIClient.config options).headers = own) :=
  ⟨rfl, rfl, fun options own h => config_own_headers options own h⟩

/-- Witness of C23: options that bring an Accept header only. -/
theorem upload_cv_has_no_content_type_witness :
    (APIClient.config
        { method := some "POST", headers := some [("Accept", "text/plain")],
          body := none }).headers
      = [("Accept", "text/plain")] :=
  (upload_cv_has_no_content_type "cv").2.2
    { method := some "POST", headers := some [("Accept", "text/plain")], body := none }
    [("Accept", "text/plain")] rfl

/-- C29 (amended). For a response with JSON body `d`: when the response is ok
`request` returns `d`; when it is not ok and `d` is not null, `request` throws
an error with the response status, with `d` as data, and with as message the
value of `d.message` when truthy (for a string: non-empty), else of `d.error`
when truthy, else "HTTP error! status: <status>". -/
theorem request_returns_data_or_throws_http_error (response : Response) (d : Json)
    (hjson : response.json = some d) :
    (response.ok = true → APIClient.request (.response response) = .returns d)
    ∧ (response.ok = false → d ≠ .null →
        APIClient.request (.response response)
          = .throws (.http (errorDetail d response.status) response.status d))
    ∧ (truthy (d.field "message") = true →
        some (errorDetail d response.status) = d.field "message")
    ∧ (truthy (d.field "message") = false → truthy (d.field "error") = true →
        some (errorDetail d response.status) = d.field "error")
    ∧ (truthy (d.field "message") = false → truthy (d.field "error") = false →
        errorDetail d response.status
          = .str ("HTTP error! status: " ++ toString response.status))
    ∧ (∀ text, d.field "message" = some (.str text) →
        (truthy (d.field "message") = true ↔ text ≠ "")) := by
  refine ⟨?_, ?_, ?_, ?_, ?_, ?_⟩
  · intro hok
    simp [APIClient.request, hjson, hok]
  · intro hok hnull
    cases d <;> simp_all [APIClient.request]
  · intro h
    unfold errorDetail
    rw [if_pos h]
    cases hm : d.field "message" with
    | none => rw [hm] at h; simp [truthy] at h
    | some v => rfl
  · intro h1 h2
    unfold errorDetail
    rw [if_neg (by simp [h1]), if_pos h2]
    cases he : d.field "error" with
    | none => rw [he] at h2; simp [truthy] at h2
    | some v => rfl
  · intro h1 h2
    simp [errorDetail, h1, h2]
  · intro text h
    simp [h, truthy]

/-- Witness of C29 (amended): a 404 with body error "Not found". -/
theorem request_returns_data_or_throws_http_error_witness :
    APIClient.request (.response (jsonResponse 404 (.obj [("error", .str "Not found")])))
      = .throws (.http (.str "Not found") 404 (.obj [("error", .str "Not found")])) :=
  (request_returns_data_or_throws_http_error
    (jsonResponse 404 (.obj [("error", .str "Not found")]))
    (.obj [("error", .str "Not found")]) rfl).2.1 rfl (by simp)

/-- C29 as stated fails. A response with status 500 whose JSON body is null
makes `data.message` throw a TypeError: the error thrown has neither the
status nor the data of the response. -/
theorem null_body_throws_type_error :
    (jsonResponse 500 .null).json = some .null
    ∧ (jsonResponse 500 .null).ok = false
    ∧ APIClient.request (.response (jsonResponse 500 .null)) = .throws .typeError
    ∧ ∀ detail, APIClient.request (.response (jsonResponse 500 .null))
        ≠ .throws (.http detail 500 .null) := by
  refine ⟨rfl, rfl, rfl, ?_⟩
  intro detail h
  have he : APIClient.request (.response (jsonResponse 500 .null)) = .throws .typeError := rfl
  rw [he] at h
  cases h

/-! ## Page handlers -/

theorem request_pending_iff (fetched : Attempt) :
    APIClient.request fetched = .pending ↔ fetched = .pending := by
  cases fetched with
  | pending => simp [APIClient.request]
  | failed => simp [APIClient.request]
  | response r =>
    simp only [APIClient.request]
    cases r.json with
    | none => simp
    | some d =>
      by_cases hok : r.ok = true
      · simp [hok]
      · cases d <;> simp [hok]

theorem runCalls_never_throws (throwsAt : UiEffect → Bool) (h : ∀ e, throwsAt e = false) :
    ∀ calls, runCalls throwsAt calls = (calls, false) := by
  intro calls
  induction calls with
  | nil => rfl
  | cons call rest ih => simp [runCalls, h call, ih]

/-- C24 (amended). Whatever the backend logout call gives (data, an HTTP
error, a network failure, a body that is not JSON), once it has settled
`handleLogout` of api.js ends with `currentUser` null and `isLoggedIn` false,
whether or not the helpers it calls throw; and it completes without throwing
exactly when neither `updateUIForLoggedOutUser()` nor `navigateToPage('home')`,
the two calls of its catch block, throws. -/
theorem logout_always_clears_session (throwsAt : UiEffect → Bool) (fetched : Attempt)
    (state : ClientState) (hsettled : fetched ≠ .pending) :
    (ApiJs.handleLogout throwsAt fetched state).state.currentUser = .null
    ∧ (ApiJs.handleLogout throwsAt fetched state).state.isLoggedIn = false
    ∧ (ApiJs.handleLogout throwsAt fetched state).completion ≠ .pending
    ∧ ((ApiJs.handleLogout throwsAt fetched state).completion = .fulfilled
        ↔ throwsAt .updateUIForLoggedOutUser = false
          ∧ throwsAt (.navigateToPage "home") = false)
    ∧ ((ApiJs.handleLogout throwsAt fetched state).completion = .rejected
        ↔ throwsAt .updateUIForLoggedOutUser = true
          ∨ throwsAt (.navigateToPage "home") = true) := by
  have hp : APIClient.request fetched ≠ .pending :=
    fun h => hsettled ((request_pending_iff fetched).mp h)
  unfold ApiJs.handleLogout
  cases hr : APIClient.request fetched with
  | pending => exact absurd hr hp
  | throws e =>
    cases hu : throwsAt .updateUIForLoggedOutUser <;>
      cases hn : throwsAt (.navigateToPage "home") <;>
      simp [logoutCatch, loggedOut, runCalls, hu, hn]
  | returns d =>
    cases hu : throwsAt .updateUIForLoggedOutUser <;>
      cases hn : throwsAt (.navigateToPage "home") <;>
      cases hs : throwsAt (.showSuccess "Logged out successfully") <;>
      simp [logoutCatch, loggedOut, runCalls, hu, hn, hs]

/-- Witness of C24 (amended): the backend answers 500 to the logout call and
no helper throws. -/
theorem logout_always_clears_session_witness :
    (ApiJs.handleLogout (fun _ => false)
        (.response (jsonResponse 500 (.obj [("error", .str "down")]))) janeState).state.currentUser
      = .null
    ∧ (ApiJs.handleLogout (fun _ => false)
        (.response (jsonResponse 500 (.obj [("error", .str "down")]))) janeState).completion
      = .fulfilled :=
  ⟨(logout_always_clears_session (fun _ => false)
      (.response (jsonResponse 500 (.obj [("error", .str "down")]))) janeState
      (by intro h; cases h)).1,
   ((logout_always_clears_session (fun _ => false)
      (.response (jsonResponse 500 (.obj [("error", .str "down")]))) janeState
      (by intro h; cases h)).2.2.2.1).mpr ⟨rfl, rfl⟩⟩

/-- C24 as stated fails. On a page where `navigateToPage` is not defined, as
in api.js itself, `handleLogout` clears the session and then rejects: after a
successful backend logout the call of `navigateToPage('home')` in the try
block throws, the catch block calls it again, and that second throw leaves the
function; after a failed backend logout the catch block throws likewise. -/
theorem logout_rejects_when_navigation_throws :
    (ApiJs.handleLogout navigateToPageUndefined
        (.response (jsonResponse 200 (.obj [("message", .str "Logged out")])))
        janeState).completion = .rejected
    ∧ (ApiJs.handleLogout navigateToPageUndefined
        (.response (jsonResponse 200 (.obj [("message", .str "Logged out")])))
        janeState).effects
      = [.apiCall APIClient.logout, .updateUIForLoggedOutUser,
         .showSuccess "Logged out successfully", .navigateToPage "home",
         .updateUIForLoggedOutUser, .navigateToPage "home"]
    ∧ (ApiJs.handleLogout navigateToPageUndefined .failed janeState).completion = .rejected
    ∧ (ApiJs.handleLogout navigateToPageUndefined .failed janeState).state.currentUser = .null
    ∧ (ApiJs.handleLogout navigateToPageUndefined .failed janeState).state.isLoggedIn
      = false :=
  ⟨rfl, rfl, rfl, rfl, rfl⟩

/-- C25. `requireAuth` returns true exactly when `currentUser` is truthy and
its `email` is truthy (for a string email: non-empty), and then makes no call;
otherwise it returns false after requesting navigation to the page login,
whose display runs no page initialisation; and when it returns false each of
the five guarded operations issues no API call. -/
theorem require_auth_guards_operations (state : ClientState) :
    ((requireAuth state).1 = true
      ↔ truthy (some state.currentUser) = true
        ∧ truthy (state.currentUser.field "email") = true)
    ∧ (∀ fields text, state.currentUser = .obj fields →
        fields.lookup "email" = some (.str text) →
        ((requireAuth state).1 = true ↔ text ≠ ""))
    ∧ ((requireAuth state).1 = true → (requireAuth state).2 = [])
    ∧ ((requireAuth state).1 = false →
        (requireAuth state).2
          = [.showAlert (some "Please log in to access this feature.") "warning",
             .navigateToPage "login"]
        ∧ pageInitializer "login" = none)
    ∧ ((requireAuth state).1 = false →
        apiCallsOf (initializeDashboard state).effects = []
        ∧ (∀ confirmed, apiCallsOf (handleAutoApply confirmed state).effects = [])
        ∧ (∀ jobId fetched, apiCallsOf (applyToJob jobId fetched state).effects = [])
        ∧ apiCallsOf (loadUserProfile state).effects = []
        ∧ (∀ fetched, apiCallsOf (loadUserApplications fetched state).effects = [])) := by
  have hreq : (requireAuth state).1 = isAuthenticated state := by
    unfold requireAuth
    cases isAuthenticated state <;> rfl
  refine ⟨?_, ?_, ?_, ?_, ?_⟩
  · rw [hreq]
    simp [isAuthenticated]
  · intro fields text hobj hmail
    rw [hreq]
    simp [isAuthenticated, hobj, Json.field, hmail, truthy]
  · intro h
    rw [hreq] at h
    simp [requireAuth, h]
  · intro h
    rw [hreq] at h
    refine ⟨by simp [requireAuth, h], by decide⟩
  · intro h
    have hcalls : apiCallsOf (requireAuth state).2 = [] := by
      rw [hreq] at h
      simp [requireAuth, h, apiCallsOf]
    refine ⟨?_, ?_, ?_, ?_, ?_⟩
    · simp [initializeDashboard, h, hcalls]
    · intro confirmed
      simp [handleAutoApply, h, hcalls]
    · intro jobId fetched
      simp [applyToJob, h, hcalls]
    · simp [loadUserProfile, h, hcalls]
    · intro fetched
      simp [loadUserApplications, h, hcalls]

/-- Witness of C25: nobody is logged in, and Jane is. -/
theorem require_auth_guards_operations_witness :
    (requireAuth loggedOutState).2
      = [.showAlert (some "Please log in to access this feature.") "warning",
         .navigateToPage "login"]
    ∧ apiCallsOf (applyToJob "42" .failed loggedOutState).effects = []
    ∧ (requireAuth janeState).2 = [] :=
  ⟨((require_auth_guards_operations loggedOutState).2.2.2.1 rfl).1,
   ((require_auth_guards_operations loggedOutState).2.2.2.2 rfl).2.2.1 "42" .failed,
   (require_auth_guards_operations janeState).2.2.1 rfl⟩

/-- C26. When the keywords are empty after trimming, `handleJobSearch` issues
no API call. Otherwise it issues exactly one call, `searchJobs` with the
trimmed keywords, the trimmed location, the job type, page 1 and limit 20;
and once that call has settled, with data or with an error, the loading flag
is false. -/
theorem job_search_issues_one_call (keywords location jobType : String) (fetched : Attempt)
    (state : ClientState) :
    (jsTrim keywords = "" →
      apiCallsOf (handleJobSearch keywords location jobType fetched state).effects = [])
    ∧ (jsTrim keywords ≠ "" →
      apiCallsOf (handleJobSearch keywords location jobType fetched state).effects
        = [APIClient.searchJobs
            (.obj [ ("keywords", .str (jsTrim keywords)), ("location", .str (jsTrim location)),
                    ("jobType", .str jobType), ("page", .num 1), ("limit", .num 20) ])])
    ∧ (jsTrim keywords ≠ "" → fetched ≠ .pending →
      (handleJobSearch keywords location jobType fetched state).state.isLoading = false
      ∧ (handleJobSearch keywords location jobType fetched state).completion = .fulfilled) := by
  refine ⟨?_, ?_, ?_⟩
  · intro h
    simp [handleJobSearch, h, apiCallsOf]
  · intro h
    unfold handleJobSearch
    rw [if_neg h]
    cases hr : APIClient.request fetched with
    | pending => rfl
    | throws e => rfl
    | returns results =>
      simp only []
      split
      · split <;> rfl
      · rfl
  · intro h hsettled
    have hp : APIClient.request fetched ≠ .pending :=
      fun hq => hsettled ((request_pending_iff fetched).mp hq)
    unfold handleJobSearch
    rw [if_neg h]
    cases hr : APIClient.request fetched with
    | pending => exact absurd hr hp
    | throws e => exact ⟨rfl, rfl⟩
    | returns results =>
      simp only []
      split
      · split <;> exact ⟨rfl, rfl⟩
      · exact ⟨rfl, rfl⟩

/-- Witness of C26: keywords made of a tab, a space and a no-break space give
no call; " lean dev " with the network down gives one call and ends with the
loading flag cleared. -/
theorem job_search_issues_one_call_witness :
    apiCallsOf (handleJobSearch "\t \u00a0" "Cape Town" "full-time" .failed
        janeState).effects = []
    ∧ jsTrim " lean dev " = "lean dev"
    ∧ (handleJobSearch " lean dev " "Cape Town" "full-time" .failed janeState).state.isLoading
      = false :=
  ⟨(job_search_issues_one_call "\t \u00a0" "Cape Town" "full-time" .failed janeState).1
      (by decide),
   by decide,
   ((job_search_issues_one_call " lean dev " "Cape Town" "full-time" .failed janeState).2.2
      (by decide) (by intro h; cases h)).1⟩

/-! ## Separation of the two caches, and non-ok responses -/

theorem handleApiRequest_caches (net : NetOutcome) (request : Request) (caches : CacheStorage) :
    (handleApiRequest net request caches).caches = caches
    ∨ ∃ live, (handleApiRequest net request caches).caches
        = cacheResponse API_CACHE_NAME request live caches := by
  unfold handleApiRequest
  cases apiFetch request net with
  | response r =>
    by_cases hok : r.ok = true
    · right; exact ⟨r, by simp [hok]⟩
    · left; simp [hok]
  | failed => left; cases caches.matchRequest request.url <;> rfl
  | pending => left; rfl

theorem handleStaticRequest_caches (selfOrigin : String) (net : NetOutcome) (request : Request)
    (caches : CacheStorage) :
    (handleStaticRequest selfOrigin net request caches).caches = caches
    ∨ ∃ live, (handleStaticRequest selfOrigin net request caches).caches
        = cacheResponse CACHE_NAME request live caches := by
  unfold handleStaticRequest
  cases fetchPlain net with
  | response r =>
    by_cases hok : r.ok = true
    · right; exact ⟨r, by simp [hok]⟩
    · left; simp [hok]
  | failed =>
    left
    cases caches.matchRequest request.url with
    | some cached => rfl
    | none =>
      simp only []
      split
      · split <;> rfl
      · rfl
  | pending => left; rfl

/-- C27 (amended). For every request and network outcome `handleApiRequest`
changes no namespace other than API_CACHE_NAME and `handleStaticRequest` none
other than CACHE_NAME; and when its network attempt fails, an API request is
answered with the first entry matching it over all namespaces in creation
order, whichever namespace holds it, and with the synthetic 503 when there is
none. -/
theorem handlers_write_only_their_namespace (selfOrigin : String) (net : NetOutcome)
    (request : Request) (caches : CacheStorage) :
    (∀ name, name ≠ API_CACHE_NAME →
      (handleApiRequest net request caches).caches.lookup name = caches.lookup name)
    ∧ (∀ name, name ≠ CACHE_NAME →
      (handleStaticRequest selfOrigin net request caches).caches.lookup name
        = caches.lookup name)
    ∧ (apiFetch request net = .failed →
      (handleApiRequest net request caches).result
        = .response ((caches.matchRequest request.url).getD apiOfflineResponse)) := by
  refine ⟨?_, ?_, ?_⟩
  · intro name hne
    rcases handleApiRequest_caches net request caches with h | ⟨live, h⟩
    · rw [h]
    · rw [h, lookup_cacheResponse_other API_CACHE_NAME name request live caches hne]
  · intro name hne
    rcases handleStaticRequest_caches selfOrigin net request caches with h | ⟨live, h⟩
    · rw [h]
    · rw [h, lookup_cacheResponse_other CACHE_NAME name request live caches hne]
  · intro hfail
    unfold handleApiRequest
    rw [hfail]
    cases caches.matchRequest request.url <;> rfl

/-- Witness of C27 (amended): an API response is stored after installation,
and the static namespace is as before. -/
theorem handlers_write_only_their_namespace_witness :
    (handleApiRequest (.responds 120 (okResponse "fresh")) profileRequest
        installedCaches).caches.lookup CACHE_NAME
      = installedCaches.lookup CACHE_NAME
    ∧ (handleApiRequest .rejects profileRequest []).result = .response apiOfflineResponse :=
  ⟨(handlers_write_only_their_namespace "https://app.example"
      (.responds 120 (okResponse "fresh")) profileRequest installedCaches).1 CACHE_NAME
      (by decide),
   (handlers_write_only_their_namespace "https://app.example" .rejects profileRequest
      []).2.2 rfl⟩

/-- C27 as stated fails. After installation and a CACHE_URLS message naming an
API URL, no API fetch has stored anything: the API namespace has no entry for
the request and the static namespace has one; when the network rejects,
`handleApiRequest` answers with the entry of the static namespace. -/
theorem api_request_answered_from_static_namespace :
    profileRequest.method = "GET"
    ∧ startsWith profileRequest.url.pathname "/api/" = true
    ∧ shadowedCaches.entry API_CACHE_NAME profileRequest.url = none
    ∧ shadowedCaches.entry CACHE_NAME profileRequest.url = some (okResponse "stale")
    ∧ (handleApiRequest .rejects profileRequest shadowedCaches).result
      = .response (okResponse "stale") :=
  ⟨rfl, rfl, rfl, rfl, rfl⟩

/-- C28. When the network attempt of a handler returns a response that is not
ok, `handleApiRequest` and `handleStaticRequest` return that very response,
their only platform call is the fetch, so the cache is not consulted, and the
cache storage is as before. -/
theorem non_ok_response_returned_unchanged (selfOrigin : String) (net : NetOutcome)
    (request : Request) (caches : CacheStorage) (r : Response)
    (_hget : request.method = "GET") (hnok : r.ok = false) :
    (apiFetch request net = .response r →
      (handleApiRequest net request caches).result = .response r
      ∧ (handleApiRequest net request caches).trace = [.fetch request (apiAbortAfter request)]
      ∧ (handleApiRequest net request caches).caches = caches)
    ∧ (fetchPlain net = .response r →
      (handleStaticRequest selfOrigin net request caches).result = .response r
      ∧ (handleStaticRequest selfOrigin net request caches).trace = [.fetch request none]
      ∧ (handleStaticRequest selfOrigin net request caches).caches = caches) := by
  constructor
  · intro h
    simp [handleApiRequest, h, hnok]
  · intro h
    simp [handleStaticRequest, h, hnok]

/-- Witness of C28: a 404 for the logo while the cache holds the logo. -/
theorem non_ok_response_returned_unchanged_witness :
    (handleStaticRequest "https://app.example"
        (.responds 30 { status := 404, statusText := "Not Found", headers := [],
                        body := .text "missing" })
        logoRequest installedCaches).result
      = .response { status := 404, statusText := "Not Found", headers := [],
                    body := .text "missing" }
    ∧ (handleStaticRequest "https://app.example"
        (.responds 30 { status := 404, statusText := "Not Found", headers := [],
                        body := .text "missing" })
        logoRequest installedCaches).caches = installedCaches :=
  ⟨((non_ok_response_returned_unchanged "https://app.example"
      (.responds 30 { status := 404, statusText := "Not Found", headers := [],
                      body := .text "missing" })
      logoRequest installedCaches
      { status := 404, statusText := "Not Found", headers := [], body := .text "missing" }
      rfl rfl).2 rfl).1,
   ((non_ok_response_returned_unchanged "https://app.example"
      (.responds 30 { status := 404, statusText := "Not Found", headers := [],
                      body := .text "missing" })
      logoRequest installedCaches
      { status := 404, statusText := "Not Found", headers := [], body := .text "missing" }
      rfl rfl).2 rfl).2.2⟩

/-! ## User initials -/

/-- C30, the code at the failing input. For a user with last name Doe and no
first name, `updateUIForLoggedInUser` of app.js sets the initials to
"undefinedD", where the claim, and the version of api.js, give "D"; with first
name Jane and no last name it sets "Jundefined". With both names, with the
email only and with nothing the text is as the claim says. -/
theorem absent_name_gives_undefined_in_initials :
    AppJs.initialsText asciiUpper doeUser = "undefinedD"
    ∧ ApiJs.initialsText asciiUpper doeUser = "D"
    ∧ AppJs.initialsText asciiUpper
        { first := some "Jane", last := none, email := some "jane@example.org" } = "Jundefined"
    ∧ AppJs.initialsText asciiUpper
        { first := some "Jane", last := some "Doe", email := some "jane@example.org" } = "JD"
    ∧ AppJs.initialsText asciiUpper
        { first := none, last := none, email := some "jane@example.org" } = "J"
    ∧ AppJs.initialsText asciiUpper { first := none, last := none, email := none } = "U" := by
  refine ⟨by decide, by decide, by decide, by decide, by decide, by decide⟩

end ServiceWorker
